import Mathlib

/-!
# Verification of the CloudReferee constraint-weighted comparison engine

This file is a shallow embedding of the core logic of the CloudReferee
repository (a deterministic cloud-provider comparison tool) together with
proofs about it.  The embedded functions follow the JavaScript source:

* `src/engine/comparisonEngine.js` — `ComparisonEngine` (weighting
  composition, provider evaluation, narrative generation, caching) and
  `ConstraintProcessor` (validation/normalization of raw constraints);
* `src/engine/outputFormatter.js` — `OutputFormatter` (structure validation
  and bias detection) and the static rule table `constraintRules`.

JavaScript numbers are modelled as rationals (`ℚ`); machine-level
floating-point rounding is outside the model.  Strings are Lean `String`s,
but all string operations are re-implemented over `List Char` so that every
definition evaluates by kernel reduction.
-/

namespace CloudReferee

/-! ## Basic string helpers (executable stand-ins for the JS primitives) -/

/-- Lower-casing, as applied by `toLowerCase()` on the ASCII data handled
by the engine. -/
def strLower (s : String) : String := ⟨s.data.map Char.toLower⟩

/-- Is `pat` a prefix of `hay`? (char-by-char, structural) -/
def listStartsWith : List Char → List Char → Bool
  | [], _ => true
  | _ :: _, [] => false
  | p :: ps, h :: hs => p == h && listStartsWith ps hs

/-- Does `hay` contain `pat` as a contiguous substring?  This models the JS
`String.prototype.includes`. -/
def listContainsSub (hay pat : List Char) : Bool :=
  match hay with
  | [] => listStartsWith pat []
  | _ :: t => listStartsWith pat hay || listContainsSub t pat

/-- Substring test on strings (`textContent.includes(keyword)`). -/
def strContains (hay pat : String) : Bool := listContainsSub hay.data pat.data

/-- Split a character list at every occurrence of the separator character.
Models `String.prototype.split('.')` for one-character separators. -/
def splitChar (sep : Char) : List Char → List (List Char)
  | [] => [[]]
  | c :: rest =>
    let r := splitChar sep rest
    if c == sep then [] :: r
    else match r with
      | [] => [[c]]
      | g :: gs => (c :: g) :: gs

/-- Model of `path.split('.')` on strings. -/
def strSplitDot (s : String) : List String := (splitChar '.' s.data).map List.asString

/-- Lexicographic comparison of character lists by code point; this is the
default JS `Array.prototype.sort()` comparison on the ASCII strings used as
constraint field names. -/
def charsLe : List Char → List Char → Bool
  | [], _ => true
  | _ :: _, [] => false
  | a :: as_, b :: bs => if a = b then charsLe as_ bs else decide (a < b)

/-- String comparison used for sorting JSON keys. -/
def strLe (a b : String) : Bool := charsLe a.data b.data

/-- Stable insertion of `x` into `l`, placing `x` before the first element
`y` with `before x y = true`.  Used to model the (stable) JS
`Array.prototype.sort(comparator)`. -/
def stableInsert (before : α → α → Bool) (x : α) : List α → List α
  | [] => [x]
  | y :: ys => if before x y then x :: y :: ys else y :: stableInsert before x ys

/-- Stable sort: elements are inserted in order of appearance, and an
element moves ahead of another only when `before` says strictly so. -/
def stableSort (before : α → α → Bool) : List α → List α
  | [] => []
  | x :: xs => stableInsert before x (stableSort before xs)

/-! ## Dimensions and constraint enumerations -/

/-- The eight fixed evaluation dimensions (keys of every `weightings` block
in `constraintRules` and of each provider's `dimensions` object). -/
inductive Dimension where
  | cost | easeOfUse | scalability | ecosystem | devops | aiml | enterprise | vendorLockIn
deriving DecidableEq, Repr

/-- The dimensions in the canonical key order used throughout the source. -/
def Dimension.all : List Dimension :=
  [.cost, .easeOfUse, .scalability, .ecosystem, .devops, .aiml, .enterprise, .vendorLockIn]

/-- The JS object key of a dimension. -/
def dimensionKey : Dimension → String
  | .cost => "cost" | .easeOfUse => "easeOfUse" | .scalability => "scalability"
  | .ecosystem => "ecosystem" | .devops => "devops" | .aiml => "aiml"
  | .enterprise => "enterprise" | .vendorLockIn => "vendorLockIn"

/-- Valid budget levels (`validBudgets` in the source). -/
inductive Budget where
  | low | medium | high
deriving DecidableEq, Repr

/-- Valid experience levels (`validExperience`). -/
inductive Experience where
  | beginner | intermediate | expert
deriving DecidableEq, Repr

/-- Valid workload types (`validWorkloads`). -/
inductive Workload where
  | startup | enterprise | research
deriving DecidableEq, Repr

/-- The twelve priority values that have entries in
`constraintRules.priorities` (also the `ConstraintProcessor`'s valid
priorities). -/
inductive Priority where
  | cost | scalability | easeOfUse | compliance | devops | aiml
  | performance | reliability | innovation | support | integration | security
deriving DecidableEq, Repr

def Budget.toText : Budget → String
  | .low => "low" | .medium => "medium" | .high => "high"

def Experience.toText : Experience → String
  | .beginner => "beginner" | .intermediate => "intermediate" | .expert => "expert"

def Workload.toText : Workload → String
  | .startup => "startup" | .enterprise => "enterprise" | .research => "research"

def Priority.toText : Priority → String
  | .cost => "cost" | .scalability => "scalability" | .easeOfUse => "ease-of-use"
  | .compliance => "compliance" | .devops => "devops" | .aiml => "aiml"
  | .performance => "performance" | .reliability => "reliability"
  | .innovation => "innovation" | .support => "support"
  | .integration => "integration" | .security => "security"

/-- A normalized constraint value, as consumed by the weighting composer
(`calculateWeightings`).  The scalar fields are guaranteed members of their
enumerations; `priorities` keeps the iteration order of the input array. -/
structure Constraints where
  budget : Budget
  experience : Experience
  workload : Workload
  priorities : List Priority
deriving DecidableEq, Repr

/-! ## The static rule table `constraintRules`
(src/engine/outputFormatter.js bundle, `constraintRules` module).
Every `weightings` block in the source lists all eight dimensions, so each
rule's distribution is a total map `Dimension → ℚ`. -/

/-- A weighting distribution over the eight dimensions. -/
def Weighting : Type := Dimension → ℚ

def budgetWeightings : Budget → Weighting
  | .low => fun d => match d with
    | .cost => 0.4 | .easeOfUse => 0.3 | .scalability => 0.1 | .enterprise => 0.1
    | .ecosystem => 0.1 | .devops => 0 | .aiml => 0 | .vendorLockIn => 0
  | .medium => fun d => match d with
    | .cost => 0.25 | .scalability => 0.25 | .ecosystem => 0.2 | .easeOfUse => 0.15
    | .enterprise => 0.1 | .devops => 0.05 | .aiml => 0 | .vendorLockIn => 0
  | .high => fun d => match d with
    | .enterprise => 0.3 | .scalability => 0.25 | .ecosystem => 0.2 | .cost => 0.1
    | .easeOfUse => 0.05 | .devops => 0.05 | .aiml => 0.05 | .vendorLockIn => 0

def experienceWeightings : Experience → Weighting
  | .beginner => fun d => match d with
    | .easeOfUse => 0.4 | .cost => 0.3 | .ecosystem => 0.15 | .scalability => 0.1
    | .enterprise => 0.05 | .devops => 0 | .aiml => 0 | .vendorLockIn => 0
  | .intermediate => fun d => match d with
    | .scalability => 0.25 | .ecosystem => 0.25 | .easeOfUse => 0.2 | .cost => 0.15
    | .devops => 0.1 | .enterprise => 0.05 | .aiml => 0 | .vendorLockIn => 0
  | .expert => fun d => match d with
    | .ecosystem => 0.3 | .scalability => 0.25 | .devops => 0.2 | .enterprise => 0.15
    | .aiml => 0.05 | .cost => 0.05 | .easeOfUse => 0 | .vendorLockIn => 0

def workloadWeightings : Workload → Weighting
  | .startup => fun d => match d with
    | .cost => 0.35 | .easeOfUse => 0.25 | .scalability => 0.2 | .ecosystem => 0.15
    | .enterprise => 0.05 | .devops => 0 | .aiml => 0 | .vendorLockIn => 0
  | .enterprise => fun d => match d with
    | .enterprise => 0.35 | .scalability => 0.25 | .ecosystem => 0.2 | .devops => 0.1
    | .cost => 0.05 | .easeOfUse => 0.05 | .aiml => 0 | .vendorLockIn => 0
  | .research => fun d => match d with
    | .aiml => 0.4 | .scalability => 0.25 | .cost => 0.2 | .ecosystem => 0.1
    | .easeOfUse => 0.05 | .enterprise => 0 | .devops => 0 | .vendorLockIn => 0

def priorityWeightings : Priority → Weighting
  | .cost => fun d => match d with
    | .cost => 0.5 | .vendorLockIn => 0.2 | .easeOfUse => 0.15 | .scalability => 0.1
    | .ecosystem => 0.05 | .enterprise => 0 | .devops => 0 | .aiml => 0
  | .scalability => fun d => match d with
    | .scalability => 0.4 | .ecosystem => 0.25 | .enterprise => 0.2 | .devops => 0.1
    | .cost => 0.05 | .easeOfUse => 0 | .aiml => 0 | .vendorLockIn => 0
  | .easeOfUse => fun d => match d with
    | .easeOfUse => 0.5 | .cost => 0.2 | .ecosystem => 0.15 | .scalability => 0.1
    | .enterprise => 0.05 | .devops => 0 | .aiml => 0 | .vendorLockIn => 0
  | .compliance => fun d => match d with
    | .enterprise => 0.5 | .scalability => 0.2 | .ecosystem => 0.15 | .cost => 0.1
    | .easeOfUse => 0.05 | .devops => 0 | .aiml => 0 | .vendorLockIn => 0
  | .devops => fun d => match d with
    | .devops => 0.4 | .ecosystem => 0.25 | .scalability => 0.2 | .enterprise => 0.1
    | .cost => 0.05 | .easeOfUse => 0 | .aiml => 0 | .vendorLockIn => 0
  | .aiml => fun d => match d with
    | .aiml => 0.5 | .scalability => 0.2 | .ecosystem => 0.15 | .cost => 0.1
    | .enterprise => 0.05 | .easeOfUse => 0 | .devops => 0 | .vendorLockIn => 0
  | .performance => fun d => match d with
    | .scalability => 0.4 | .enterprise => 0.25 | .ecosystem => 0.2 | .devops => 0.1
    | .cost => 0.05 | .easeOfUse => 0 | .aiml => 0 | .vendorLockIn => 0
  | .reliability => fun d => match d with
    | .enterprise => 0.4 | .scalability => 0.3 | .ecosystem => 0.15 | .devops => 0.1
    | .cost => 0.05 | .easeOfUse => 0 | .aiml => 0 | .vendorLockIn => 0
  | .innovation => fun d => match d with
    | .ecosystem => 0.35 | .aiml => 0.25 | .devops => 0.2 | .scalability => 0.15
    | .enterprise => 0.05 | .cost => 0 | .easeOfUse => 0 | .vendorLockIn => 0
  | .support => fun d => match d with
    | .enterprise => 0.5 | .ecosystem => 0.2 | .scalability => 0.15 | .cost => 0.1
    | .easeOfUse => 0.05 | .devops => 0 | .aiml => 0 | .vendorLockIn => 0
  | .integration => fun d => match d with
    | .ecosystem => 0.4 | .easeOfUse => 0.25 | .devops => 0.2 | .enterprise => 0.1
    | .scalability => 0.05 | .cost => 0 | .aiml => 0 | .vendorLockIn => 0
  | .security => fun d => match d with
    | .enterprise => 0.5 | .scalability => 0.2 | .ecosystem => 0.15 | .devops => 0.1
    | .cost => 0.05 | .easeOfUse => 0 | .aiml => 0 | .vendorLockIn => 0

/-- A hard filter attached to a rule entry: a dot-path into the provider
record and an inclusive numeric bound (`{min?, max?}`). -/
structure FilterRule where
  path : String
  lo : Option ℚ
  hi : Option ℚ
deriving DecidableEq, Repr

def budgetFilters : Budget → List FilterRule
  | .low => [⟨"cost.budgetFriendliness", some 6, none⟩, ⟨"cost.costPredictability", some 6, none⟩]
  | .medium => []
  | .high => [⟨"enterprise.compliance", some 7, none⟩, ⟨"enterprise.support", some 7, none⟩]

def experienceFilters : Experience → List FilterRule
  | .beginner => [⟨"easeOfUse.learningCurve", some 6, none⟩,
      ⟨"easeOfUse.setupComplexity", some 6, none⟩,
      ⟨"easeOfUse.uiIntuitiveness", some 6, none⟩]
  | .intermediate => []
  | .expert => [⟨"ecosystem.serviceCount", some 7, none⟩, ⟨"devops.automationTools", some 7, none⟩]

def workloadFilters : Workload → List FilterRule
  | .startup => [⟨"cost.budgetFriendliness", some 6, none⟩]
  | .enterprise => [⟨"enterprise.compliance", some 8, none⟩,
      ⟨"enterprise.support", some 8, none⟩, ⟨"enterprise.sla", some 8, none⟩]
  | .research => [⟨"aiml.mlServices", some 7, none⟩, ⟨"aiml.dataProcessing", some 7, none⟩]

/-! ## Weighting composition (`ComparisonEngine.calculateWeightings`) -/

/-- Model of `mergeWeightings(base, overlay, influence)`: for every dimension that
the overlay defines (and that is present in `base`; the base always holds
all eight keys, having been copied from a budget rule), blend it into the
base in place; dimensions absent from the overlay are left unchanged.  The
overlay is an optional map so that the absence case of the source's
`for (const [dimension, weight] of Object.entries(overlay))` loop is
represented; every rule-table overlay is total. -/
def mergeWeightings (base : Weighting) (overlay : Dimension → Option ℚ) (influence : ℚ) :
    Weighting := fun d =>
  match overlay d with
  | some w => base d * (1 - influence) + w * influence
  | none => base d

/-- Sum of a weighting over all eight dimensions
(`Object.values(weightings).reduce((sum, w) => sum + w, 0)`). -/
def totalWeight (w : Weighting) : ℚ :=
  w .cost + w .easeOfUse + w .scalability + w .ecosystem +
    w .devops + w .aiml + w .enterprise + w .vendorLockIn

/-- Model of `normalizeWeightings`: divide every dimension weight by the total; all
zeros when the total is not positive. -/
def normalizeWeightings (w : Weighting) : Weighting := fun d =>
  if totalWeight w > 0 then w d / totalWeight w else 0

/-- The weighting before normalization: budget base, then experience
(influence 0.3), workload (influence 0.4) and each priority (influence
0.2) blended sequentially in iteration order.  The source guards each
priority blend with `if (this.rules.priorities[priority])`; the rule table
holds an entry for all twelve `Priority` values, so the guard always
passes. -/
def preWeightings (c : Constraints) : Weighting :=
  c.priorities.foldl
    (fun base p => mergeWeightings base (fun d => some (priorityWeightings p d)) 0.2)
    (mergeWeightings
      (mergeWeightings (budgetWeightings c.budget)
        (fun d => some (experienceWeightings c.experience d)) 0.3)
      (fun d => some (workloadWeightings c.workload d)) 0.4)

/-- Model of `ComparisonEngine.calculateWeightings`. -/
def calculateWeightings (c : Constraints) : Weighting :=
  normalizeWeightings (preWeightings c)

/-! Specification-side restatement of the composition algorithm, written
from the spec's words (§4.2) for claim C3: a base distribution followed by
a sequence of (overlay, influence) blends, then a division by the sum over
all eight dimensions (all zeros if the sum is zero). -/

/-- One blending step as described by the spec: for dimensions present in
both base and overlay, `base[d] = base[d]*(1-influence) + overlay[d]*influence`;
dimensions absent from the overlay are left unchanged. -/
def specBlendStep (base : Weighting) (step : (Dimension → Option ℚ) × ℚ) : Weighting :=
  fun d => match step.1 d with
    | some w => base d * (1 - step.2) + w * step.2
    | none => base d

/-- The spec's blend sequence: experience with influence 0.3, workload with
influence 0.4, then each selected priority with influence 0.2 in the
constraint's priority iteration order. -/
def specBlendSequence (c : Constraints) : List ((Dimension → Option ℚ) × ℚ) :=
  ((fun d => some (experienceWeightings c.experience d)), 0.3) ::
    ((fun d => some (workloadWeightings c.workload d)), 0.4) ::
    c.priorities.map (fun p => ((fun d => some (priorityWeightings p d)), 0.2))

/-- Normalization as the spec words it: divide every weight by the sum over
all 8 dimensions, all zeros if the sum is zero.  (A weighting composed from
the rule tables is never negative, so "sum is zero" and the source's
`total > 0` test agree; the definition keeps the source's test.) -/
def specComposedWeighting (c : Constraints) : Weighting :=
  normalizeWeightings
    ((specBlendSequence c).foldl specBlendStep (budgetWeightings c.budget))

/-! ## Provider records and scoring (`ComparisonEngine.evaluateProvider`) -/

/-- A sub-metric value in a dimension block.  The scoring loop keeps only
`typeof value === 'number'` entries; every other value (string, nested
object, ...) is collapsed into `other`, since nothing in the engine reads
a non-numeric sub-metric's content. -/
inductive SubMetric where
  | num (q : ℚ)
  | other
deriving DecidableEq, Repr

/-- One dimension block: a flat map of named sub-metrics in key order. -/
def Block : Type := List (String × SubMetric)

/-- A provider record as loaded by the data manager: the `provider`
identity block, the `dimensions` object (a dimension key may be absent,
`none`, or present with any block, `some b`), the three text arrays, and
the optional `tradeOffs {gains, losses}` block. -/
structure ProviderRecord where
  name : String
  displayName : String
  lastUpdated : String
  dims : Dimension → Option Block
  strengths : List String
  weaknesses : List String
  idealUseCases : List String
  tradeOffs : Option (List String × List String)

/-- The numeric sub-metric values of a block, in key order (the
`typeof value === 'number'` collection loop). -/
def numericValues (b : Block) : List ℚ :=
  b.filterMap (fun kv => match kv.2 with | .num q => some q | .other => none)

/-- Model of `ComparisonEngine.calculateDimensionScore`: the unweighted arithmetic
mean of the numeric sub-metric values of a block, or 0 when the block has
no numeric entry. -/
def calculateDimensionScore (b : Block) : ℚ :=
  if (numericValues b).length > 0 then
    (numericValues b).sum / ((numericValues b).length : ℚ)
  else 0

/-- A minimal JS value, used to model the dynamic dot-path traversal of
`getNestedValue` over a provider record. -/
inductive JVal where
  | jnum (q : ℚ)
  | jstr (s : String)
  | jarr (elems : List JVal)
  | jobj (fields : List (String × JVal))
deriving Repr

/-- The sub-metric as a JS value. -/
def SubMetric.toJVal : SubMetric → JVal
  | .num q => .jnum q
  | .other => .jobj []

/-- The provider record as the JS object the filters traverse.  Its
top-level keys are exactly `provider`, `dimensions`, `strengths`,
`weaknesses`, `idealUseCases` and (when present) `tradeOffs` — the shape of
the persisted provider JSON. -/
def ProviderRecord.toJVal (p : ProviderRecord) : JVal :=
  .jobj ([("provider", .jobj [("name", .jstr p.name), ("displayName", .jstr p.displayName),
            ("lastUpdated", .jstr p.lastUpdated)]),
          ("dimensions", .jobj (Dimension.all.filterMap (fun d =>
            (p.dims d).map (fun b =>
              (dimensionKey d, JVal.jobj (b.map (fun kv => (kv.1, kv.2.toJVal)))))))),
          ("strengths", .jarr (p.strengths.map .jstr)),
          ("weaknesses", .jarr (p.weaknesses.map .jstr)),
          ("idealUseCases", .jarr (p.idealUseCases.map .jstr))] ++
        (match p.tradeOffs with
          | some gl => [("tradeOffs", .jobj [("gains", .jarr (gl.1.map .jstr)),
              ("losses", .jarr (gl.2.map .jstr))])]
          | none => []))

/-- Model of `ComparisonEngine.getNestedValue`: split the path on `.` and fold
`current?.[key]` over the segments.  Property lookup is defined on objects;
the engine's filter paths never index into arrays or strings. -/
def getNestedValue (v : JVal) (path : String) : Option JVal :=
  (strSplitDot path).foldl
    (fun cur key => match cur with
      | some (.jobj fields) => List.lookup key fields
      | _ => none)
    (some v)

/-- Model of `ComparisonEngine.applyFilter`: a missing path fails the filter; a
numeric value fails when a bound is violated.  A non-numeric value at the
path trips neither bound (the JS `<`/`>` comparisons against the values
occurring here are `false`), hence passes. -/
def applyFilter (pv : JVal) (f : FilterRule) : Bool :=
  match getNestedValue pv f.path with
  | none => false
  | some (.jnum q) =>
    (match f.lo with | some m => decide (¬ q < m) | none => true) &&
      (match f.hi with | some m => decide (¬ q > m) | none => true)
  | some _ => true

/-- Model of `ComparisonEngine.checkConstraintFilters`: the union of the filters of
the selected budget, experience and workload rule entries (priorities carry
no filters in the rule table); all must pass. -/
def checkConstraintFilters (p : ProviderRecord) (c : Constraints) : Bool :=
  (budgetFilters c.budget ++ experienceFilters c.experience ++
      workloadFilters c.workload).all (applyFilter p.toJVal)

/-- A provider evaluation (`ComparisonEngine.evaluateProvider` result). -/
structure Evaluation where
  providerName : String
  totalScore : ℚ
  dimensionScores : Dimension → Option ℚ
  passesFilters : Bool
  strengths : List String
  weaknesses : List String
  idealUseCases : List String
  tradeOffs : Option (List String × List String)

/-- The dimension score recorded by the scoring loop: defined exactly when
the dimension's weight is positive and the block is present. -/
def dimScoreOpt (p : ProviderRecord) (w : Weighting) (d : Dimension) : Option ℚ :=
  match p.dims d with
  | some b => if w d > 0 then some (calculateDimensionScore b) else none
  | none => none

/-- One dimension's contribution `dimensionScore * weight` to the total
score (0 when the weight is not positive or the block is absent). -/
def dimContribution (p : ProviderRecord) (w : Weighting) (d : Dimension) : ℚ :=
  match p.dims d with
  | some b => if w d > 0 then calculateDimensionScore b * w d else 0
  | none => 0

/-- Model of `ComparisonEngine.evaluateProvider`: for every dimension with positive
weight and a present block, record the block's mean as the dimension score
and add `score * weight` to the total.  The filter check is computed
separately and only stored. -/
def evaluateProvider (p : ProviderRecord) (c : Constraints) (w : Weighting) : Evaluation :=
  { providerName := p.name
    totalScore := (Dimension.all.map (dimContribution p w)).sum
    dimensionScores := dimScoreOpt p w
    passesFilters := checkConstraintFilters p c
    strengths := p.strengths
    weaknesses := p.weaknesses
    idealUseCases := p.idealUseCases
    tradeOffs := p.tradeOffs }

/-! ## Rounding and rendering helpers -/

/-- JS `Math.round`: round half toward positive infinity, `⌊x + 1/2⌋`. -/
def jsRound (q : ℚ) : ℤ := ⌊q + 1/2⌋

/-- Model of `Math.round(value * 10) / 10`, the one-decimal rounding the source
applies to `matchScore`, the summary scores and the decision-guidance
scores. -/
def roundTo1 (q : ℚ) : ℚ := (jsRound (q * 10) : ℚ) / 10

/-- Round half away from zero (the rounding named by the spec). -/
def roundHalfAwayFromZero (q : ℚ) : ℤ :=
  if 0 ≤ q then ⌊q + 1/2⌋ else -⌊-q + 1/2⌋

/-- Round-half-away-from-zero on the value scaled by 10, then unscale:
the spec's description of one-decimal rounding. -/
def specRoundTo1 (q : ℚ) : ℚ := (roundHalfAwayFromZero (q * 10) : ℚ) / 10

def natToStr (n : Nat) : String := (Nat.toDigits 10 n).asString

def intToStr (i : ℤ) : String :=
  if i < 0 then "-" ++ natToStr i.natAbs else natToStr i.natAbs

/-- Stand-in for JS number-to-string conversion when a score is
interpolated into a template literal.  Exact integers print as integers;
other rationals print as `num/den`.  (JS prints the shortest decimal
round-tripping the float; no claim settled in this file depends on the
exact digits, only on *which* rational value is interpolated.) -/
def showNum (q : ℚ) : String :=
  if q.den = 1 then intToStr q.num else intToStr q.num ++ "/" ++ natToStr q.den

/-- Upper-casing (`toUpperCase()` on the ASCII provider names). -/
def strUpper (s : String) : String := ⟨s.data.map Char.toUpper⟩

/-- Model of `array.join(', ')`. -/
def joinSep (sep : String) : List String → String
  | [] => ""
  | [x] => x
  | x :: rest => x ++ sep ++ joinSep sep rest

/-! ## Narrative generation -/

/-- A template sentence with one interpolated numeric score, modelling a JS
template literal such as
`` `Excellent cost optimization (${score}/10) - ...` ``.
The interpolated rational is kept as a field so that theorems can speak
about the numeric value embedded in the text. -/
structure TemplText where
  pre : String
  score : ℚ
  post : String
deriving DecidableEq, Repr

def TemplText.render (t : TemplText) : String := t.pre ++ showNum t.score ++ t.post

/-- A narrative list entry: either a synthesized template sentence or a
static string from the provider record. -/
inductive NarrText where
  | templ (t : TemplText)
  | plain (s : String)
deriving DecidableEq, Repr

def NarrText.render : NarrText → String
  | .templ t => t.render
  | .plain s => s

/-- Model of `ComparisonEngine.getDimensionStrengthText` — the fixed strength
template table.  The map covers every `Dimension`, so the `|| null`
fallback of the source is unreachable here. -/
def getDimensionStrengthText (d : Dimension) (score : ℚ) : TemplText :=
  match d with
  | .cost => ⟨"Excellent cost optimization (", score, "/10) - great for budget-conscious projects"⟩
  | .easeOfUse => ⟨"Very user-friendly (", score, "/10) - ideal for teams prioritizing simplicity"⟩
  | .scalability => ⟨"Outstanding scalability (", score, "/10) - perfect for growing applications"⟩
  | .ecosystem => ⟨"Rich service ecosystem (", score, "/10) - extensive integration options"⟩
  | .devops => ⟨"Strong DevOps support (", score, "/10) - excellent automation capabilities"⟩
  | .aiml => ⟨"Advanced AI/ML services (", score, "/10) - leading machine learning platform"⟩
  | .enterprise => ⟨"Enterprise-ready (", score, "/10) - comprehensive compliance and support"⟩
  | .vendorLockIn => ⟨"Good portability (", score, "/10) - easier migration and flexibility"⟩

/-- Model of `ComparisonEngine.getDimensionWeaknessText` — the weakness templates. -/
def getDimensionWeaknessText (d : Dimension) (score : ℚ) : TemplText :=
  match d with
  | .cost => ⟨"Higher costs (", score, "/10) - may exceed budget constraints"⟩
  | .easeOfUse => ⟨"Steeper learning curve (", score, "/10) - requires more technical expertise"⟩
  | .scalability => ⟨"Limited scalability (", score, "/10) - may not handle rapid growth well"⟩
  | .ecosystem => ⟨"Smaller service portfolio (", score, "/10) - fewer integration options"⟩
  | .devops => ⟨"Basic DevOps tools (", score, "/10) - limited automation capabilities"⟩
  | .aiml => ⟨"Limited AI/ML services (", score, "/10) - fewer machine learning options"⟩
  | .enterprise => ⟨"Less enterprise focus (", score, "/10) - limited compliance features"⟩
  | .vendorLockIn => ⟨"Higher lock-in risk (", score, "/10) - harder to migrate later"⟩

/-- The dimension-score entries of an evaluation in a fixed key order.
(The JS object key order — the budget rule's literal order — only affects
tie-breaking among equal scores; the canonical order is used here.) -/
def scoreEntries (e : Evaluation) : List (Dimension × ℚ) :=
  Dimension.all.filterMap (fun d => (e.dimensionScores d).map (fun s => (d, s)))

/-- Model of `getConstraintSpecificStrengths`: dimensions scoring ≥ 7, sorted
descending (stable), top 3 through the strength template table, then the
static strengths, truncated to 5. -/
def getConstraintSpecificStrengths (e : Evaluation) : List NarrText :=
  let top := (stableSort (fun a b => decide (b.2 ≤ a.2))
    ((scoreEntries e).filter (fun x => decide (x.2 ≥ 7)))).take 3
  (top.map (fun x => NarrText.templ (getDimensionStrengthText x.1 x.2)) ++
      e.strengths.map NarrText.plain).take 5

/-- Model of `getConstraintSpecificWeaknesses`: dimensions scoring ≤ 5, sorted
ascending (stable), top 3 through the weakness template table, then the
static weaknesses, truncated to 4. -/
def getConstraintSpecificWeaknesses (e : Evaluation) : List NarrText :=
  let low := (stableSort (fun a b => decide (a.2 ≤ b.2))
    ((scoreEntries e).filter (fun x => decide (x.2 ≤ 5)))).take 3
  (low.map (fun x => NarrText.templ (getDimensionWeaknessText x.1 x.2)) ++
      e.weaknesses.map NarrText.plain).take 4

/-- Model of `getConstraintSpecificUseCases`: fixed sentences triggered by specific
constraint values, then the static use cases, truncated to 4. -/
def getConstraintSpecificUseCases (e : Evaluation) (c : Constraints) : List String :=
  ((if c.budget = .low then ["Cost-sensitive projects with budget constraints"] else []) ++
    (if c.experience = .beginner then ["Teams new to cloud platforms seeking ease of use"] else []) ++
    (if c.workload = .enterprise then ["Large-scale enterprise applications requiring compliance"] else []) ++
    (if c.priorities.contains .aiml then ["AI/ML projects requiring advanced data processing"] else []) ++
    (if c.priorities.contains .devops then ["DevOps-focused teams needing automation tools"] else []) ++
    e.idealUseCases).take 4

/-- One gains/losses trigger of `generateConstraintSpecificTradeOffs`: if
the priority is selected and the dimension score reaches `hiThr` the gain
text fires, else if it is at most `loThr` the loss text fires; an absent
dimension score fires neither (`undefined >= 7` and `undefined <= 5` are
both false in JS). -/
def gainLossTrigger (selected : Bool) (sc : Option ℚ) (hiThr loThr : ℚ)
    (gainTxt lossTxt : String) : List String × List String :=
  if selected then
    match sc with
    | some s => if s ≥ hiThr then ([gainTxt], []) else if s ≤ loThr then ([], [lossTxt]) else ([], [])
    | none => ([], [])
  else ([], [])

/-- Model of `ComparisonEngine.formatTradeOffs`: format the provider's static
trade-offs block, or a fixed fallback when the block is missing. -/
def formatTradeOffs (t : Option (List String × List String)) : String :=
  match t with
  | none => "Trade-off information not available"
  | some gl => "Gains: " ++ joinSep ", " gl.1 ++ ". Losses: " ++ joinSep ", " gl.2 ++ "."

/-- Model of `generateConstraintSpecificTradeOffs`: the cost/ease-of-use/scalability
priority triggers; when none fires, fall back to the static block. -/
def generateConstraintSpecificTradeOffs (e : Evaluation) (c : Constraints) : String :=
  let t1 := gainLossTrigger (c.priorities.contains .cost) (e.dimensionScores .cost) 7 5
    "cost-effective pricing" "higher costs"
  let t2 := gainLossTrigger (c.priorities.contains .easeOfUse) (e.dimensionScores .easeOfUse) 7 5
    "user-friendly experience" "steeper learning curve"
  let t3 := gainLossTrigger (c.priorities.contains .scalability) (e.dimensionScores .scalability) 8 6
    "excellent scalability" "limited scaling options"
  let gains := t1.1 ++ t2.1 ++ t3.1
  let losses := t1.2 ++ t2.2 ++ t3.2
  if gains = [] ∧ losses = [] then formatTradeOffs e.tradeOffs
  else
    "Choosing this provider gains you: " ++
      (if gains = [] then "various benefits" else joinSep ", " gains) ++
      ". However, you may lose: " ++
      (if losses = [] then "some capabilities" else joinSep ", " losses) ++ "."

/-! ## Cross-provider analysis and decision guidance -/

/-- The display name of an analysis dimension
(`dimensionNames[dimension] || dimension`). -/
def dimensionDisplayName : Dimension → String
  | .cost => "cost-effectiveness"
  | .easeOfUse => "ease of use"
  | .ecosystem => "service ecosystem"
  | .vendorLockIn => "flexibility and portability"
  | d => dimensionKey d

/-- A cross-provider analysis sentence, modelling the template literal of
`generateDimensionAnalysis` with its two interpolated raw scores. -/
structure AnalysisText where
  dimLabel : String
  bestProvider : String
  bestScore : ℚ
  worstProvider : String
  worstScore : ℚ
  workload : Workload
deriving Repr

def AnalysisText.render (a : AnalysisText) : String :=
  "For " ++ a.dimLabel ++ ": " ++ strUpper a.bestProvider ++ " leads with " ++
    showNum a.bestScore ++ "/10, offering the best value in this area. " ++
    strUpper a.worstProvider ++ " scores " ++ showNum a.worstScore ++
    "/10, which may be a consideration for your " ++ a.workload.toText ++ " workload."

/-- Model of `ComparisonEngine.generateDimensionAnalysis`: sort the providers'
scores on the dimension descending (missing scores default to 0), name the
first and the last.  The source indexes `[0]` and `[length-1]`, which the
engine only reaches with a non-empty provider set; the empty case defaults
here. -/
def generateDimensionAnalysis (d : Dimension)
    (scores : List (String × (Dimension → Option ℚ))) (c : Constraints) : AnalysisText :=
  let providerScores := stableSort (fun a b => decide (b.2 ≤ a.2))
    (scores.map (fun ns => (ns.1, ((ns.2 d).getD 0))))
  let best := providerScores.head?.getD ("", 0)
  let worst := providerScores.getLast?.getD ("", 0)
  { dimLabel := dimensionDisplayName d, bestProvider := best.1, bestScore := best.2,
    worstProvider := worst.1, worstScore := worst.2, workload := c.workload }

/-- The `crossProviderAnalysis` block: one analysis sentence per fixed
output dimension. -/
structure CrossProviderAnalysis where
  costTradeOffs : AnalysisText
  complexityTradeOffs : AnalysisText
  ecosystemTradeOffs : AnalysisText
  flexibilityTradeOffs : AnalysisText
deriving Repr

/-- Model of `ComparisonEngine.generateCrossProviderAnalysis`. -/
def generateCrossProviderAnalysis (evals : List (String × Evaluation))
    (c : Constraints) : CrossProviderAnalysis :=
  let scores := evals.map (fun ne => (ne.1, ne.2.dimensionScores))
  { costTradeOffs := generateDimensionAnalysis .cost scores c
    complexityTradeOffs := generateDimensionAnalysis .easeOfUse scores c
    ecosystemTradeOffs := generateDimensionAnalysis .ecosystem scores c
    flexibilityTradeOffs := generateDimensionAnalysis .vendorLockIn scores c }

/-- A decision-guidance entry `"<PROVIDER> (<score>/10)"`; the interpolated
score is kept as a field.  It is the already-rounded value
`Math.round(raw * 10) / 10`. -/
structure GuidanceEntry where
  name : String
  score : ℚ
deriving DecidableEq, Repr

/-- Build a guidance entry from a provider name and the *raw* dimension
score; the source rounds the score to one decimal inside the template. -/
def guidanceEntry (n : String) (raw : ℚ) : GuidanceEntry :=
  ⟨strUpper n, roundTo1 raw⟩

def GuidanceEntry.render (g : GuidanceEntry) : String :=
  g.name ++ " (" ++ showNum g.score ++ "/10)"

/-- The `decisionGuidance` block.  `overallBest` is `none` only for an
empty provider set, where the source's `sortedByScore[0][0]` would throw. -/
structure DecisionGuidance where
  costOptimized : List GuidanceEntry
  easeOfUse : List GuidanceEntry
  enterprise : List GuidanceEntry
  innovation : List GuidanceEntry
  overallBest : Option GuidanceEntry
deriving Repr

/-- The dimension score used by the guidance sorts
(`evaluation.dimensionScores?.X || 0`). -/
def guidanceScore (e : Evaluation) (d : Dimension) : ℚ := (e.dimensionScores d).getD 0

/-- Model of `ComparisonEngine.generateDecisionGuidance`: for each category sort all
providers descending by that dimension's (defaulted) score and keep the top
2 as entries; `overallBest` is the top provider by total score. -/
def generateDecisionGuidance (evals : List (String × Evaluation))
    (_c : Constraints) : DecisionGuidance :=
  let byDim (d : Dimension) : List GuidanceEntry :=
    ((stableSort (fun a b => decide (guidanceScore b.2 d ≤ guidanceScore a.2 d)) evals).take 2).map
      (fun ne => guidanceEntry ne.1 (guidanceScore ne.2 d))
  let sortedByScore := stableSort (fun a b => decide (b.2.totalScore ≤ a.2.totalScore)) evals
  { costOptimized := byDim .cost
    easeOfUse := byDim .easeOfUse
    enterprise := byDim .enterprise
    innovation := byDim .aiml
    overallBest := sortedByScore.head?.map (fun ne => guidanceEntry ne.1 ne.2.totalScore) }

/-! ## Assembled comparison output (`generateComparisonOutput`) -/

/-- The per-provider section of the comparison output. -/
structure ProviderSection where
  strengths : List NarrText
  weaknesses : List NarrText
  idealUseCases : List String
  tradeOffs : String
  matchScore : ℚ
deriving Repr

/-- The constraint-based summary block.  `topMatch` is `none` only for an
empty provider set, where the source's `sortedEvaluations[0]` would throw. -/
structure ConstraintSummary where
  topMatch : Option String
  matchReason : String
  allProviders : List (String × ℚ)
deriving Repr

/-- Model of `ComparisonEngine.generateConstraintBasedSummary`. -/
def generateConstraintBasedSummary (c : Constraints)
    (sortedEvals : List (String × Evaluation)) : ConstraintSummary :=
  { topMatch := sortedEvals.head?.map (fun ne => ne.1)
    matchReason := "Based on your " ++ c.budget.toText ++ " budget, " ++
      c.experience.toText ++ " experience level, " ++ c.workload.toText ++
      " workload, and priorities in " ++ joinSep ", " (c.priorities.map Priority.toText)
    allProviders := sortedEvals.map (fun ne => (ne.1, roundTo1 ne.2.totalScore)) }

/-- The engine's structured comparison output, with providers in
descending-score order (the JS object keeps the insertion order of the
sorted loop). -/
structure ComparisonOutput where
  providers : List (String × ProviderSection)
  crossProviderAnalysis : CrossProviderAnalysis
  decisionGuidance : DecisionGuidance
  constraintSummary : ConstraintSummary
deriving Repr

/-- Model of `ComparisonEngine.generateComparisonOutput`. -/
def generateComparisonOutput (evals : List (String × Evaluation))
    (c : Constraints) : ComparisonOutput :=
  let sortedEvaluations := stableSort (fun a b => decide (b.2.totalScore ≤ a.2.totalScore)) evals
  { providers := sortedEvaluations.map (fun ne =>
      (ne.1,
        { strengths := getConstraintSpecificStrengths ne.2
          weaknesses := getConstraintSpecificWeaknesses ne.2
          idealUseCases := getConstraintSpecificUseCases ne.2 c
          tradeOffs := generateConstraintSpecificTradeOffs ne.2 c
          matchScore := roundTo1 ne.2.totalScore }))
    crossProviderAnalysis := generateCrossProviderAnalysis evals c
    decisionGuidance := generateDecisionGuidance evals c
    constraintSummary := generateConstraintBasedSummary c sortedEvaluations }

/-! ## Output formatter (`src/engine/outputFormatter.js`)

`formatComparisonResults` re-shapes an assembled comparison output and then
runs the structural check and the neutrality (bias) scan over it.  On the
values the engine produces, `ensureArray` is the identity on the arrays and
the formatter's `formatTradeOffs` is the identity on the (string)
trade-offs, so the formatting coercions below are field copies; the
per-provider `matchScore` and the guidance `overallBest` are dropped
because the formatter does not copy them. -/

/-- A formatted per-provider section: exactly the four required keys. -/
structure FormattedProvider where
  strengths : List NarrText
  weaknesses : List NarrText
  idealUseCases : List String
  tradeOffs : String
deriving Repr

/-- The formatted decision guidance: exactly the four required keys
(`overallBest` is not copied by `formatDecisionGuidance`). -/
structure FormattedGuidance where
  costOptimized : List GuidanceEntry
  easeOfUse : List GuidanceEntry
  enterprise : List GuidanceEntry
  innovation : List GuidanceEntry
deriving Repr

/-- The formatter's output object, in JS property insertion order:
timestamp, constraints, providers, crossProviderAnalysis,
decisionGuidance. -/
structure FormattedOutput where
  timestamp : String
  constraints : Constraints
  providers : List (String × FormattedProvider)
  crossProviderAnalysis : CrossProviderAnalysis
  decisionGuidance : FormattedGuidance
deriving Repr

/-- Model of `OutputFormatter.formatProviders`. -/
def formatProviders (ps : List (String × ProviderSection)) :
    List (String × FormattedProvider) :=
  ps.map (fun np => (np.1,
    { strengths := np.2.strengths
      weaknesses := np.2.weaknesses
      idealUseCases := np.2.idealUseCases
      tradeOffs := np.2.tradeOffs }))

/-- Model of `OutputFormatter.formatDecisionGuidance`. -/
def formatDecisionGuidance (g : DecisionGuidance) : FormattedGuidance :=
  { costOptimized := g.costOptimized
    easeOfUse := g.easeOfUse
    enterprise := g.enterprise
    innovation := g.innovation }

/-- Model of `OutputFormatter.validateOutputStructure`.  The three top-level
sections, the four per-provider sections, the four analysis keys and the
four guidance keys are always present on a formatter-produced value (they
are record fields here, mirroring the object literal the formatter always
builds), so the only reachable structural errors are missing required
providers; the error messages follow the source. -/
def validateOutputStructure (f : FormattedOutput) : List String :=
  (["aws", "azure", "gcp"].filter (fun r => !(f.providers.map Prod.fst).contains r)).map
    (fun r => "Missing required provider: " ++ r)

/-- Model of `OutputFormatter.extractTextContent`: every string of the output in
depth-first property order, joined with single spaces. -/
def extractTextContent (f : FormattedOutput) : String :=
  joinSep " "
    ([f.timestamp, f.constraints.budget.toText, f.constraints.experience.toText,
        f.constraints.workload.toText] ++
      f.constraints.priorities.map Priority.toText ++
      (f.providers.map (fun np =>
        np.2.strengths.map NarrText.render ++ np.2.weaknesses.map NarrText.render ++
          np.2.idealUseCases ++ [np.2.tradeOffs])).flatten ++
      [f.crossProviderAnalysis.costTradeOffs.render,
        f.crossProviderAnalysis.complexityTradeOffs.render,
        f.crossProviderAnalysis.ecosystemTradeOffs.render,
        f.crossProviderAnalysis.flexibilityTradeOffs.render] ++
      (f.decisionGuidance.costOptimized.map GuidanceEntry.render) ++
      (f.decisionGuidance.easeOfUse.map GuidanceEntry.render) ++
      (f.decisionGuidance.enterprise.map GuidanceEntry.render) ++
      (f.decisionGuidance.innovation.map GuidanceEntry.render))

/-! ### The neutrality scan (`OutputFormatter.detectBias`)

The two keyword families are literal case-insensitive substring tests; the
ranking and recommendation families are the source's fixed `/.../i`
regular expressions, implemented below over character lists with JS
word-boundary (`\b`), whitespace (`\s`) and digit (`\d`) semantics. -/

def biasKeywords : List String :=
  ["winner", "loser", "definitely choose", "avoid at all costs",
    "hands down", "without question", "obviously the best",
    "clearly superior", "terrible choice", "awful option"]

def promotionalKeywords : List String :=
  ["revolutionary", "game-changing", "industry-leading", "cutting-edge",
    "state-of-the-art", "world-class", "premium", "exclusive",
    "unmatched", "unparalleled", "breakthrough", "innovative"]

/-- JS `\w`: ASCII letters, digits and underscore. -/
def isWordChar (c : Char) : Bool := c.isAlphanum || c == '_'

/-- JS `\s` for the whitespace occurring here. -/
def isSpaceChar (c : Char) : Bool := c.isWhitespace

/-- Model of `\b` before the first pattern character `c`, given the preceding
character of the text (`none` at the start). -/
def boundaryBefore (prev : Option Char) (c : Char) : Bool :=
  if isWordChar c then
    match prev with | none => true | some p => !isWordChar p
  else
    match prev with | none => false | some p => isWordChar p

/-- Model of `\b` after the last matched character, given the rest of the text. -/
def boundaryAfter (lastC : Char) (rest : List Char) : Bool :=
  if isWordChar lastC then
    match rest with | [] => true | c :: _ => !isWordChar c
  else
    match rest with | [] => false | c :: _ => isWordChar c

/-- Strip `pat` from the front of `hay`, returning the remainder. -/
def stripPrefixChars : List Char → List Char → Option (List Char)
  | [], hay => some hay
  | _ :: _, [] => none
  | p :: ps, h :: hs => if p == h then stripPrefixChars ps hs else none

/-- Try a test at every position of the text, tracking the preceding
character for the word-boundary assertions. -/
def scanFrom (test : Option Char → List Char → Bool) :
    Option Char → List Char → Bool
  | prev, [] => test prev []
  | prev, c :: rest => test prev (c :: rest) || scanFrom test (some c) rest

/-- Match `\b(alt₁|…)\b` for literal alternatives (possibly containing
single spaces, which match themselves) at one position. -/
def literalAltsAt (alts : List String) (prev : Option Char) (hay : List Char) : Bool :=
  alts.any (fun a =>
    match a.data with
    | [] => false
    | c :: _ =>
      boundaryBefore prev c &&
        match stripPrefixChars a.data hay with
        | some rest => boundaryAfter (a.data.getLastD ' ') rest
        | none => false)

/-- Match `\b(alt₁|…)\s+(alt₂|…)` (optionally with a trailing `\b`) at one
position.  Every second-group alternative starts with a non-space
character, so the backtracking of the greedy `\s+` can only succeed right
after the maximal whitespace run, which is what is consumed here. -/
def seqAltsAt (alts1 alts2 : List String) (trailB : Bool)
    (prev : Option Char) (hay : List Char) : Bool :=
  alts1.any (fun a1 =>
    match a1.data with
    | [] => false
    | c :: _ =>
      boundaryBefore prev c &&
        match stripPrefixChars a1.data hay with
        | none => false
        | some rest =>
          match rest with
          | [] => false
          | w :: _ =>
            isSpaceChar w &&
              alts2.any (fun a2 =>
                match stripPrefixChars a2.data (rest.dropWhile isSpaceChar) with
                | none => false
                | some rest3 => !trailB || boundaryAfter (a2.data.getLastD ' ') rest3))

/-- Match `\b(alt₁|…)\s+\d+` at one position. -/
def rankDigitsAt (alts1 : List String) (prev : Option Char) (hay : List Char) : Bool :=
  alts1.any (fun a1 =>
    match a1.data with
    | [] => false
    | c :: _ =>
      boundaryBefore prev c &&
        match stripPrefixChars a1.data hay with
        | none => false
        | some rest =>
          match rest with
          | [] => false
          | w :: _ =>
            isSpaceChar w &&
              match rest.dropWhile isSpaceChar with
              | [] => false
              | d :: _ => d.isDigit)

/-- Run a positional test over a whole string. -/
def strScan (test : Option Char → List Char → Bool) (s : String) : Bool :=
  scanFrom test none s.data

/-- Model of `OutputFormatter.detectBias`: the accumulated issue list, in the
source's order — bias keywords, promotional keywords, the three ranking
patterns, the three recommendation patterns.  All tests are
case-insensitive, realized by scanning the lower-cased text with
lower-case patterns. -/
def detectBias (f : FormattedOutput) : List String :=
  let text := strLower (extractTextContent f)
  (biasKeywords.filterMap (fun k =>
      if strContains text (strLower k) then
        some ("Potential bias detected: \"" ++ k ++ "\"") else none)) ++
    (promotionalKeywords.filterMap (fun k =>
      if strContains text (strLower k) then
        some ("Promotional language detected: \"" ++ k ++ "\"") else none)) ++
    ((if strScan (seqAltsAt
          ["first", "second", "third", "1st", "2nd", "3rd", "#1", "#2", "#3"]
          ["choice", "option", "provider", "place", "position"] true) text then
        ["Numerical ranking detected: \\b(first|second|third|1st|2nd|3rd|#1|#2|#3)\\s+(choice|option|provider|place|position)\\b"]
      else []) ++
      (if strScan (rankDigitsAt ["rank", "ranking", "ranked"]) text then
        ["Numerical ranking detected: \\b(rank|ranking|ranked)\\s+\\d+"]
      else []) ++
      (if strScan (seqAltsAt ["top", "bottom"] ["choice", "option", "provider"] true) text then
        ["Numerical ranking detected: \\b(top|bottom)\\s+(choice|option|provider)\\b"]
      else [])) ++
    ((if strScan (literalAltsAt ["should choose", "must use", "go with", "pick"]) text then
        ["Definitive recommendation detected: \\b(should choose|must use|go with|pick)\\b"]
      else []) ++
      (if strScan (literalAltsAt ["the answer is", "the solution is"]) text then
        ["Definitive recommendation detected: \\b(the answer is|the solution is)\\b"]
      else []) ++
      (if strScan (seqAltsAt ["definitely", "absolutely", "certainly"]
          ["use", "choose", "pick"] true) text then
        ["Definitive recommendation detected: \\b(definitely|absolutely|certainly)\\s+(use|choose|pick)\\b"]
      else []))

/-- The outcome of `OutputFormatter.formatComparisonResults`: a success
carrying the formatted results, or the caught-and-wrapped failure value
`{success: false, error: {code: 'OUTPUT_FORMATTING_ERROR', message}}`. -/
inductive FormatResult where
  | success (results : FormattedOutput)
  | failure (code msg : String)
deriving Repr

/-- Model of `OutputFormatter.formatComparisonResults`: assemble the formatted
output, fail if the structural check accumulates any error, otherwise fail
if the neutrality scan accumulates any issue, otherwise succeed with the
assembled output unchanged.  `now` models `new Date().toISOString()`. -/
def formatComparisonResults (raw : ComparisonOutput) (c : Constraints)
    (now : String) : FormatResult :=
  let formatted : FormattedOutput :=
    { timestamp := now
      constraints := c
      providers := formatProviders raw.providers
      crossProviderAnalysis := raw.crossProviderAnalysis
      decisionGuidance := formatDecisionGuidance raw.decisionGuidance }
  let errors := validateOutputStructure formatted
  if errors ≠ [] then
    .failure "OUTPUT_FORMATTING_ERROR"
      ("Output structure validation failed: " ++ joinSep ", " errors)
  else
    let issues := detectBias formatted
    if issues ≠ [] then
      .failure "OUTPUT_FORMATTING_ERROR" ("Bias detected in output: " ++ joinSep ", " issues)
    else .success formatted

/-! ## The constraint processor (`ConstraintProcessor`) -/

/-- The processor's twelve valid priority strings. -/
def processorValidPriorities : List String :=
  ["cost", "scalability", "ease-of-use", "compliance", "devops", "aiml",
    "performance", "reliability", "innovation", "support", "integration", "security"]

def validBudgetStrings : List String := ["low", "medium", "high"]
def validExperienceStrings : List String := ["beginner", "intermediate", "expert"]
def validWorkloadStrings : List String := ["startup", "enterprise", "research"]

/-- A raw, untrusted constraint input: each scalar field absent (`none`) or
a string; `priorities` absent-or-not-an-array (`none`) or an array of
strings. -/
structure RawConstraintInput where
  budget : Option String
  experience : Option String
  workload : Option String
  priorities : Option (List String)
deriving DecidableEq, Repr

/-- Model of `constraints.field?.toLowerCase() || dflt`: an absent field, or one
whose lower-casing is the empty (falsy) string, is replaced by the
default. -/
def lowerOrDefault (o : Option String) (dflt : String) : String :=
  match o with
  | none => dflt
  | some s => if strLower s = "" then dflt else strLower s

/-- The processor's normalized constraint record. -/
structure NormalizedPC where
  budget : String
  experience : String
  workload : String
  priorities : List String
deriving DecidableEq, Repr

/-- Model of `ConstraintProcessor.normalizeConstraints`: lower-case and default the
scalar fields; lower-case the priorities and silently drop any not in the
valid list. -/
def normalizeConstraints (r : RawConstraintInput) : NormalizedPC :=
  { budget := lowerOrDefault r.budget "medium"
    experience := lowerOrDefault r.experience "intermediate"
    workload := lowerOrDefault r.workload "startup"
    priorities :=
      match r.priorities with
      | some ps => (ps.map strLower).filter (fun p => processorValidPriorities.contains p)
      | none => [] }

/-- Model of `ConstraintProcessor.validateConstraints`, on the normalized record it
receives from `processConstraints` (so `priorities` is always an array and
the not-an-array warning branch is unreachable).  Returns
(errors, warnings) in the source's push order. -/
def validateConstraints (c : NormalizedPC) : List String × List String :=
  let errs :=
    (if c.budget = "" then ["Budget level is required"]
      else if !validBudgetStrings.contains c.budget then
        ["Invalid budget level: " ++ c.budget ++ ". Must be one of: " ++
          joinSep ", " validBudgetStrings]
      else []) ++
    (if c.experience = "" then ["Experience level is required"]
      else if !validExperienceStrings.contains c.experience then
        ["Invalid experience level: " ++ c.experience ++ ". Must be one of: " ++
          joinSep ", " validExperienceStrings]
      else []) ++
    (if c.workload = "" then ["Workload type is required"]
      else if !validWorkloadStrings.contains c.workload then
        ["Invalid workload type: " ++ c.workload ++ ". Must be one of: " ++
          joinSep ", " validWorkloadStrings]
      else [])
  let invalid := c.priorities.filter (fun p => !processorValidPriorities.contains p)
  let warns :=
    (if invalid ≠ [] then ["Invalid priorities ignored: " ++ joinSep ", " invalid] else []) ++
      (if c.priorities = [] then ["No valid priorities specified, using default weighting"]
        else [])
  (errs, warns)

/-- The outcome of `ConstraintProcessor.processConstraints`. -/
inductive ProcessorResult where
  | success (constraints : NormalizedPC) (warnings : List String)
  | failure (errors warnings : List String)
deriving DecidableEq, Repr

/-- Model of `ConstraintProcessor.processConstraints`: normalize first, then
validate the normalized record; fail iff any error accumulated. -/
def processConstraintsPC (r : RawConstraintInput) : ProcessorResult :=
  let n := normalizeConstraints r
  let v := validateConstraints n
  if v.1 ≠ [] then .failure v.1 v.2 else .success n v.2

/-! ## Cache fingerprints (`generateCacheKey` / `hashString`) -/

/-- A constraint field value as serialized into the cache key: the scalar
fields are strings, `priorities` an array of strings. -/
inductive CVal where
  | cstr (s : String)
  | carr (elems : List String)
deriving DecidableEq, Repr

/-- JSON string quoting (the constraint strings involved need no escape
sequences). -/
def jsonQuote (s : String) : String := "\"" ++ s ++ "\""

def serializeCVal : CVal → String
  | .cstr s => jsonQuote s
  | .carr es => "[" ++ joinSep "," (es.map jsonQuote) ++ "]"

/-- Model of `JSON.stringify(constraints, Object.keys(constraints).sort())`: with an
array replacer, the serialized properties follow the replacer's (sorted)
key order; a key without a corresponding property is skipped.  The values
here are strings and string arrays, so the replacer does not affect any
nested level. -/
def jsonStringifySortedKeys (fields : List (String × CVal)) : String :=
  let sortedKeys := stableSort strLe (fields.map Prod.fst)
  "\x7b" ++
    joinSep ","
      (sortedKeys.filterMap (fun k =>
        (List.lookup k fields).map (fun v => jsonQuote k ++ ":" ++ serializeCVal v))) ++
    "\x7d"

/-- Wrap an integer to the signed 32-bit range (`| 0` / `&` semantics). -/
def toInt32 (n : ℤ) : ℤ := (n + 2 ^ 31) % 2 ^ 32 - 2 ^ 31

/-- One step of `hashString`: `hash = ((hash << 5) - hash) + charCode;
hash = hash & hash`.  The shift wraps to 32 bits; the subtraction and
addition are exact in float64 at these magnitudes; the final `& hash`
wraps to 32 bits again. -/
def hashStep (h : ℤ) (c : Char) : ℤ := toInt32 (toInt32 (h * 32) - h + c.toNat)

/-- Model of `ComparisonEngine.hashString` (the character codes of the strings
involved are their ASCII codes). -/
def hashString (s : String) : ℤ := s.data.foldl hashStep 0

/-- A base-36 digit, lower case as produced by `toString(36)`. -/
def base36Digit (n : Nat) : Char :=
  if n < 10 then Char.ofNat (48 + n) else Char.ofNat (87 + n)

/-- Base-36 digits of `n`, most significant first (fuel-driven). -/
def natToBase36Aux : Nat → Nat → List Char
  | 0, _ => []
  | fuel + 1, n => if n = 0 then [] else natToBase36Aux fuel (n / 36) ++ [base36Digit (n % 36)]

/-- Model of `Math.abs(hash).toString(36)` for naturals (64 digits of fuel cover
every 32-bit value). -/
def natToBase36 (n : Nat) : String :=
  if n = 0 then "0" else (natToBase36Aux 64 n).asString

/-- Model of `ComparisonEngine.generateCacheKey` over the ordered field list of the
constraints object. -/
def generateCacheKey (fields : List (String × CVal)) : String :=
  "comparison_" ++ natToBase36 (hashString (jsonStringifySortedKeys fields)).natAbs

/-! ## The engine entry point (`ComparisonEngine.processConstraints`) -/

/-- The raw constraints object handed to the engine (in the deployed route
this is the processor's normalized record, but the engine accepts any
shape of this form). -/
structure EngineInput where
  budget : Option String
  experience : Option String
  workload : Option String
  priorities : Option (List String)
deriving DecidableEq, Repr

/-- The ordered own-property list of the engine input as a JS object
(property insertion order `budget`, `experience`, `workload`,
`priorities`; absent properties do not serialize). -/
def EngineInput.fields (i : EngineInput) : List (String × CVal) :=
  (match i.budget with | some b => [("budget", CVal.cstr b)] | none => []) ++
    (match i.experience with | some e => [("experience", CVal.cstr e)] | none => []) ++
    (match i.workload with | some w => [("workload", CVal.cstr w)] | none => []) ++
    (match i.priorities with | some ps => [("priorities", CVal.carr ps)] | none => [])

/-- Model of `constraints.field || dflt` (the empty string is falsy). -/
def orDefault (o : Option String) (d : String) : String :=
  match o with
  | none => d
  | some s => if s = "" then d else s

def engineParseBudget (s : String) : Option Budget :=
  if s = "low" then some .low else if s = "medium" then some .medium
  else if s = "high" then some .high else none

def engineParseExperience (s : String) : Option Experience :=
  if s = "beginner" then some .beginner else if s = "intermediate" then some .intermediate
  else if s = "expert" then some .expert else none

def engineParseWorkload (s : String) : Option Workload :=
  if s = "startup" then some .startup else if s = "enterprise" then some .enterprise
  else if s = "research" then some .research else none

/-- The engine's own `validPriorities` list holds only these six values
(`['cost', 'scalability', 'ease-of-use', 'compliance', 'devops', 'aiml']`);
any other priority string is filtered out here. -/
def engineParsePriority (s : String) : Option Priority :=
  if s = "cost" then some .cost else if s = "scalability" then some .scalability
  else if s = "ease-of-use" then some .easeOfUse else if s = "compliance" then some .compliance
  else if s = "devops" then some .devops else if s = "aiml" then some .aiml else none

/-- Model of `ComparisonEngine.validateAndNormalizeConstraints`: default the falsy
scalar fields, then reject (throw) on the first field not in its enum;
keep only the engine-valid priorities. -/
def validateAndNormalizeConstraints (i : EngineInput) : Except String Constraints :=
  let budget := orDefault i.budget "medium"
  let experience := orDefault i.experience "intermediate"
  let workload := orDefault i.workload "startup"
  let priorities := i.priorities.getD []
  match engineParseBudget budget with
  | none => .error ("Invalid budget level: " ++ budget)
  | some b =>
    match engineParseExperience experience with
    | none => .error ("Invalid experience level: " ++ experience)
    | some e =>
      match engineParseWorkload workload with
      | none => .error ("Invalid workload type: " ++ workload)
      | some w =>
        .ok { budget := b, experience := e, workload := w,
              priorities := priorities.filterMap engineParsePriority }

/-- Model of `getCacheStats()` (the `toFixed(2) + '%'` string formatting of the hit
rate is kept as the underlying rational). -/
structure CacheStats where
  hits : Nat
  misses : Nat
  hitRate : ℚ
  size : Nat
  maxSize : Nat
deriving DecidableEq, Repr

def getCacheStats (hits misses size : Nat) : CacheStats :=
  { hits, misses
    hitRate := if hits + misses > 0 then (hits : ℚ) / ((hits : ℚ) + (misses : ℚ)) * 100 else 0
    size, maxSize := 100 }

/-- The success value of `ComparisonEngine.processConstraints`:
`{success: true, comparison, metadata: {timestamp, constraints, weightings,
fromCache, cacheStats}}`.  `mTimestamp` is `none` on values served from the
cache, where `cacheResult` stripped it. -/
structure SuccessResult where
  comparison : ComparisonOutput
  mTimestamp : Option String
  mConstraints : Constraints
  mWeightings : Weighting
  fromCache : Bool
  cacheStats : CacheStats

/-- The result of `processConstraints`: the success value, or the caught
failure `{success: false, error: {code: 'COMPARISON_ERROR', message,
timestamp}}`. -/
inductive EngineResult where
  | ok (r : SuccessResult)
  | err (code msg timestamp : String)

/-- The engine's mutable state: the cache map in insertion order and the
hit/miss counters. -/
structure EngineState where
  cache : List (String × SuccessResult)
  cacheHits : Nat
  cacheMisses : Nat

def emptyEngineState : EngineState := ⟨[], 0, 0⟩

/-- Model of `ComparisonEngine.clearCache`. -/
def clearCache (_ : EngineState) : EngineState := ⟨[], 0, 0⟩

/-- Model of `ComparisonEngine.cacheResult`: evict the oldest entry when the cache
is full, then store the result with the timestamp stripped.  (`Map.set`
would overwrite an existing key in place, but on the miss path the key is
always absent, so insertion order is appending.) -/
def cacheResult (st : EngineState) (key : String) (r : SuccessResult) : EngineState :=
  let c := if st.cache.length ≥ 100 then st.cache.drop 1 else st.cache
  { st with cache := c ++ [(key, { r with mTimestamp := none })] }

/-- Model of `ComparisonEngine.processConstraints`.  `ds` is the provider map from
`dataManager.getAllProviders()` in its (deterministic) insertion order;
`now` models `new Date().toISOString()`, the only impure input; every
thrown error is caught and wrapped with code `COMPARISON_ERROR`. -/
def processConstraints (ds : List (String × ProviderRecord)) (st : EngineState)
    (i : EngineInput) (now : String) : EngineResult × EngineState :=
  let key := generateCacheKey i.fields
  match List.lookup key st.cache with
  | some cached =>
    let st' := { st with cacheHits := st.cacheHits + 1 }
    (.ok { cached with
            fromCache := true,
            cacheStats := getCacheStats st'.cacheHits st'.cacheMisses st'.cache.length },
      st')
  | none =>
    let st1 := { st with cacheMisses := st.cacheMisses + 1 }
    match validateAndNormalizeConstraints i with
    | .error msg => (.err "COMPARISON_ERROR" msg now, st1)
    | .ok nc =>
      if ds.length = 0 then
        (.err "COMPARISON_ERROR" "No provider data available" now, st1)
      else
        let weightings := calculateWeightings nc
        let evaluations := ds.map (fun np => (np.1, evaluateProvider np.2 nc weightings))
        let comparison := generateComparisonOutput evaluations nc
        let res : SuccessResult :=
          { comparison, mTimestamp := some now, mConstraints := nc
            mWeightings := weightings, fromCache := false
            cacheStats := getCacheStats st1.cacheHits st1.cacheMisses st1.cache.length }
        (.ok res, cacheResult st1 key res)

/-! ## Auxiliary definitions used by the claim statements -/

/-- A provider record with well-formed dimension data: every dimension
block is present and holds at least one numeric sub-metric, all numeric
values within [1,10]. -/
def WellFormedDims (p : ProviderRecord) : Prop :=
  ∀ d, ∃ b, p.dims d = some b ∧ numericValues b ≠ [] ∧
    ∀ x ∈ numericValues b, 1 ≤ x ∧ x ≤ 10

/-- A scalar constraint field that was supplied (and not emptied by
lower-casing) but is not a member of its enumeration. -/
def scalarFieldInvalid (o : Option String) (valid : List String) : Bool :=
  match o with
  | none => false
  | some s => !(strLower s == "") && !(valid.contains (strLower s))

/-- The per-field error messages the processor accumulates, one per
supplied-and-invalid scalar field, in field order. -/
def fieldErrorMessages (r : RawConstraintInput) : List String :=
  (if scalarFieldInvalid r.budget validBudgetStrings then
      ["Invalid budget level: " ++ lowerOrDefault r.budget "medium" ++
        ". Must be one of: " ++ joinSep ", " validBudgetStrings]
    else []) ++
  (if scalarFieldInvalid r.experience validExperienceStrings then
      ["Invalid experience level: " ++ lowerOrDefault r.experience "intermediate" ++
        ". Must be one of: " ++ joinSep ", " validExperienceStrings]
    else []) ++
  (if scalarFieldInvalid r.workload validWorkloadStrings then
      ["Invalid workload type: " ++ lowerOrDefault r.workload "startup" ++
        ". Must be one of: " ++ joinSep ", " validWorkloadStrings]
    else [])

/-- The only warning the processor can emit through `processConstraints`:
the generic no-valid-priorities warning, present exactly when no valid
priority remains after filtering. -/
def noPriorityWarning (n : NormalizedPC) : List String :=
  if n.priorities = [] then ["No valid priorities specified, using default weighting"] else []

/-- Erase the wall-clock timestamps of an engine result (the success
metadata timestamp, respectively the error timestamp). -/
def eraseTimestamps : EngineResult → EngineResult
  | .ok r => .ok { r with mTimestamp := none }
  | .err code msg _ => .err code msg ""

/-- Erase the cache-bookkeeping metadata (`fromCache`, `cacheStats`) of an
engine result, leaving everything else — including the metadata
timestamp — in place. -/
def stripCacheBookkeeping : EngineResult → EngineResult
  | .ok r => .ok { r with fromCache := false, cacheStats := getCacheStats 0 0 0 }
  | .err code msg t => .err code msg t

/-- The wall-clock timestamp carried by an engine result. -/
def resultTimestamp : EngineResult → Option String
  | .ok r => r.mTimestamp
  | .err _ _ t => some t

/-! ## Concrete fixtures used for witnesses and counterexamples -/

/-- The all-defaults normalized constraint
(`medium` / `intermediate` / `startup`, no priorities). -/
def defaultConstraints : Constraints := ⟨.medium, .intermediate, .startup, []⟩

/-- A well-formed sample provider: every dimension block holds one numeric
sub-metric 5. -/
def sampleProvider : ProviderRecord :=
  { name := "aws"
    displayName := "Amazon Web Services"
    lastUpdated := "2024-01-01T00:00:00.000Z"
    dims := fun _ => some [("metric", SubMetric.num 5)]
    strengths := ["Broad service portfolio"]
    weaknesses := ["Complex pricing"]
    idealUseCases := ["Large web applications"]
    tradeOffs := some (["service breadth"], ["complexity"]) }

/-- A provider whose `cost` dimension block is present but empty (`{}`),
all other blocks holding one numeric sub-metric 8. -/
def emptyCostProvider : ProviderRecord :=
  { name := "aws"
    displayName := "Amazon Web Services"
    lastUpdated := "2024-01-01T00:00:00.000Z"
    dims := fun d => match d with
      | .cost => some []
      | _ => some [("metric", SubMetric.num 8)]
    strengths := ["Broad service portfolio"]
    weaknesses := ["Complex pricing"]
    idealUseCases := ["Large web applications"]
    tradeOffs := some (["service breadth"], ["complexity"]) }

/-! # Theorems -/

/-! ## Weighting composition: totals, non-negativity, C3, C4 -/

theorem totalWeight_merge (base f : Weighting) (i : ℚ) :
    totalWeight (mergeWeightings base (fun d => some (f d)) i) =
      (1 - i) * totalWeight base + i * totalWeight f := by
  simp only [totalWeight, mergeWeightings]
  ring

theorem budgetWeightings_total (b : Budget) : totalWeight (budgetWeightings b) = 1 := by
  cases b <;> norm_num [budgetWeightings, totalWeight]

theorem experienceWeightings_total (e : Experience) :
    totalWeight (experienceWeightings e) = 1 := by
  cases e <;> norm_num [experienceWeightings, totalWeight]

theorem workloadWeightings_total (w : Workload) : totalWeight (workloadWeightings w) = 1 := by
  cases w <;> norm_num [workloadWeightings, totalWeight]

theorem priorityWeightings_total (p : Priority) : totalWeight (priorityWeightings p) = 1 := by
  cases p <;> norm_num [priorityWeightings, totalWeight]

theorem foldl_priorities_total (l : List Priority) (base : Weighting)
    (h : totalWeight base = 1) :
    totalWeight (l.foldl
      (fun b p => mergeWeightings b (fun d => some (priorityWeightings p d)) 0.2) base) = 1 := by
  induction l generalizing base with
  | nil => exact h
  | cons p ps ih =>
    simp only [List.foldl_cons]
    refine ih _ ?_
    rw [totalWeight_merge, h, priorityWeightings_total]
    norm_num

theorem preWeightings_total (c : Constraints) : totalWeight (preWeightings c) = 1 := by
  unfold preWeightings
  refine foldl_priorities_total _ _ ?_
  rw [totalWeight_merge, totalWeight_merge, budgetWeightings_total,
    experienceWeightings_total, workloadWeightings_total]
  norm_num

theorem normalizeWeightings_of_total_one (w : Weighting) (h : totalWeight w = 1) :
    normalizeWeightings w = w := by
  funext d
  simp [normalizeWeightings, h]

theorem calculateWeightings_eq_pre (c : Constraints) :
    calculateWeightings c = preWeightings c := by
  unfold calculateWeightings
  exact normalizeWeightings_of_total_one _ (preWeightings_total c)

theorem calculateWeightings_total (c : Constraints) :
    totalWeight (calculateWeightings c) = 1 := by
  rw [calculateWeightings_eq_pre]
  exact preWeightings_total c

theorem budgetWeightings_nonneg (b : Budget) (d : Dimension) :
    0 ≤ budgetWeightings b d := by
  cases b <;> cases d <;> norm_num [budgetWeightings]

theorem experienceWeightings_nonneg (e : Experience) (d : Dimension) :
    0 ≤ experienceWeightings e d := by
  cases e <;> cases d <;> norm_num [experienceWeightings]

theorem workloadWeightings_nonneg (w : Workload) (d : Dimension) :
    0 ≤ workloadWeightings w d := by
  cases w <;> cases d <;> norm_num [workloadWeightings]

theorem priorityWeightings_nonneg (p : Priority) (d : Dimension) :
    0 ≤ priorityWeightings p d := by
  cases p <;> cases d <;> norm_num [priorityWeightings]

theorem merge_nonneg {base f : Weighting} {i : ℚ} (hb : ∀ d, 0 ≤ base d)
    (hf : ∀ d, 0 ≤ f d) (h0 : 0 ≤ i) (h1 : i ≤ 1) (d : Dimension) :
    0 ≤ mergeWeightings base (fun d' => some (f d')) i d := by
  simp only [mergeWeightings]
  have := mul_nonneg (hb d) (by linarith : (0:ℚ) ≤ 1 - i)
  have := mul_nonneg (hf d) h0
  nlinarith [hb d, hf d]

theorem foldl_priorities_nonneg (l : List Priority) (base : Weighting)
    (h : ∀ d, 0 ≤ base d) (d : Dimension) :
    0 ≤ l.foldl
      (fun b p => mergeWeightings b (fun d' => some (priorityWeightings p d')) 0.2) base d := by
  induction l generalizing base with
  | nil => exact h d
  | cons p ps ih =>
    simp only [List.foldl_cons]
    exact ih _ (fun d' =>
      merge_nonneg h (priorityWeightings_nonneg p) (by norm_num : (0:ℚ) ≤ 0.2)
        (by norm_num : (0.2:ℚ) ≤ 1) d')

theorem preWeightings_nonneg (c : Constraints) (d : Dimension) :
    0 ≤ preWeightings c d := by
  unfold preWeightings
  refine foldl_priorities_nonneg _ _ (fun d' => ?_) d
  exact merge_nonneg
    (fun d'' => merge_nonneg (budgetWeightings_nonneg c.budget)
      (experienceWeightings_nonneg c.experience) (by norm_num) (by norm_num) d'')
    (workloadWeightings_nonneg c.workload) (by norm_num) (by norm_num) d'

theorem calculateWeightings_nonneg (c : Constraints) (d : Dimension) :
    0 ≤ calculateWeightings c d := by
  rw [calculateWeightings_eq_pre]
  exact preWeightings_nonneg c d

/-- C3: for every normalized constraint, the composed weighting equals the
spec's algorithm — the budget rule's distribution as base, then a
sequential blend of the experience rule (influence 0.3), the workload rule
(influence 0.4) and each selected priority (influence 0.2) in priority
iteration order, where a blend sets `base[d] = base[d]*(1-i) + overlay[d]*i`
for dimensions present in both and leaves dimensions absent from the
overlay unchanged, followed by dividing every weight by the sum over all 8
dimensions (all zeros if the sum is zero). -/
theorem c3_weighting_composition (c : Constraints) (d : Dimension) :
    calculateWeightings c d = specComposedWeighting c d := by
  unfold calculateWeightings specComposedWeighting preWeightings specBlendSequence
  rw [List.foldl_cons, List.foldl_cons, List.foldl_map]
  rfl

/-- C4: for every valid normalized constraint, the composed weighting
distribution sums to 1.0 within 1e-9 over the 8 dimensions, or is all
zeros.  (In the exact rational model the sum is exactly 1.) -/
theorem c4_weighting_normalization (c : Constraints) :
    |totalWeight (calculateWeightings c) - 1| ≤ 1 / 1000000000 ∨
      ∀ d, calculateWeightings c d = 0 := by
  left
  rw [calculateWeightings_total]
  norm_num

/-! ## Score bounds (C5) -/

theorem list_len_le_sum (l : List ℚ) (h : ∀ x ∈ l, 1 ≤ x) : (l.length : ℚ) ≤ l.sum := by
  induction l with
  | nil => simp
  | cons a t ih =>
    have ha := h a (by simp)
    have ht := ih (fun x hx => h x (by simp [hx]))
    simp only [List.length_cons, List.sum_cons]
    push_cast
    linarith

theorem list_sum_le_ten (l : List ℚ) (h : ∀ x ∈ l, x ≤ 10) : l.sum ≤ 10 * l.length := by
  induction l with
  | nil => simp
  | cons a t ih =>
    have ha := h a (by simp)
    have ht := ih (fun x hx => h x (by simp [hx]))
    simp only [List.length_cons, List.sum_cons]
    push_cast
    linarith

theorem calculateDimensionScore_bounds (b : Block) (hne : numericValues b ≠ [])
    (hx : ∀ x ∈ numericValues b, 1 ≤ x ∧ x ≤ 10) :
    1 ≤ calculateDimensionScore b ∧ calculateDimensionScore b ≤ 10 := by
  have hlen : 0 < (numericValues b).length := List.length_pos.mpr hne
  have hlenQ : (0 : ℚ) < ((numericValues b).length : ℚ) := by exact_mod_cast hlen
  unfold calculateDimensionScore
  rw [if_pos hlen]
  constructor
  · rw [le_div_iff₀ hlenQ]
    have := list_len_le_sum _ (fun x hx' => (hx x hx').1)
    linarith
  · rw [div_le_iff₀ hlenQ]
    have := list_sum_le_ten _ (fun x hx' => (hx x hx').2)
    linarith

theorem sum_map_scaled (w : Weighting) (k : ℚ) :
    (Dimension.all.map (fun d => w d * k)).sum = totalWeight w * k := by
  simp only [Dimension.all, List.map_cons, List.map_nil, List.sum_cons, List.sum_nil,
    totalWeight]
  ring

theorem dimContribution_bounds {p : ProviderRecord} {w : Weighting}
    (hwn : ∀ d, 0 ≤ w d) (hp : WellFormedDims p) (d : Dimension) :
    w d * 1 ≤ dimContribution p w d ∧ dimContribution p w d ≤ w d * 10 := by
  obtain ⟨b, hb, hbne, hbx⟩ := hp d
  have hc : dimContribution p w d = if w d > 0 then calculateDimensionScore b * w d else 0 := by
    unfold dimContribution
    rw [hb]
  rw [hc]
  by_cases hpos : w d > 0
  · rw [if_pos hpos]
    obtain ⟨h1, h10⟩ := calculateDimensionScore_bounds b hbne hbx
    constructor
    · calc w d * 1 = 1 * w d := by ring
        _ ≤ calculateDimensionScore b * w d :=
          mul_le_mul_of_nonneg_right h1 (le_of_lt hpos)
    · calc calculateDimensionScore b * w d ≤ 10 * w d :=
          mul_le_mul_of_nonneg_right h10 (le_of_lt hpos)
        _ = w d * 10 := by ring
  · rw [if_neg hpos]
    have hz : w d = 0 := le_antisymm (not_lt.mp hpos) (hwn d)
    rw [hz]
    norm_num

/-- C5: for every provider record with well-formed dimension data — every
dimension block present with at least one numeric sub-metric, all numeric
values within [1,10] — and every weighting produced by
`calculateWeightings`, each recorded per-dimension score and the total
score lie within [1,10].  (Corrected from the claim as stated: a block
that is present but has no numeric sub-metric is averaged to 0 by
`calculateDimensionScore`, see `c5_score_bounds_counterexample`.) -/
theorem c5_score_bounds (p : ProviderRecord) (c : Constraints) (hp : WellFormedDims p) :
    (∀ d s, (evaluateProvider p c (calculateWeightings c)).dimensionScores d = some s →
        1 ≤ s ∧ s ≤ 10) ∧
      1 ≤ (evaluateProvider p c (calculateWeightings c)).totalScore ∧
      (evaluateProvider p c (calculateWeightings c)).totalScore ≤ 10 := by
  have hwn : ∀ d, 0 ≤ calculateWeightings c d := calculateWeightings_nonneg c
  have hw1 : totalWeight (calculateWeightings c) = 1 := calculateWeightings_total c
  refine ⟨?_, ?_, ?_⟩
  · intro d s hs
    obtain ⟨b, hb, hbne, hbx⟩ := hp d
    simp only [evaluateProvider, dimScoreOpt, hb] at hs
    by_cases hpos : calculateWeightings c d > 0
    · rw [if_pos hpos] at hs
      obtain rfl : calculateDimensionScore b = s := Option.some.inj hs
      exact calculateDimensionScore_bounds b hbne hbx
    · rw [if_neg hpos] at hs
      exact absurd hs (Option.some_ne_none s).symm
  · have hlow : (Dimension.all.map (fun d => calculateWeightings c d * 1)).sum ≤
        (Dimension.all.map (dimContribution p (calculateWeightings c))).sum :=
      List.sum_le_sum (fun d _ => (dimContribution_bounds hwn hp d).1)
    rw [sum_map_scaled, hw1] at hlow
    simpa [evaluateProvider] using hlow
  · have hhigh : (Dimension.all.map (dimContribution p (calculateWeightings c))).sum ≤
        (Dimension.all.map (fun d => calculateWeightings c d * 10)).sum :=
      List.sum_le_sum (fun d _ => (dimContribution_bounds hwn hp d).2)
    rw [sum_map_scaled, hw1] at hhigh
    simpa [evaluateProvider] using hhigh

/-- C5 witness: the bounds hold at the concrete sample provider and the
default constraint. -/
theorem c5_score_bounds_witness :
    1 ≤ (evaluateProvider sampleProvider defaultConstraints
        (calculateWeightings defaultConstraints)).totalScore ∧
      (evaluateProvider sampleProvider defaultConstraints
        (calculateWeightings defaultConstraints)).totalScore ≤ 10 :=
  (c5_score_bounds sampleProvider defaultConstraints
    (fun d => ⟨[("metric", SubMetric.num 5)], rfl, by simp [numericValues],
      by intro x hx; simp [numericValues] at hx; subst hx; norm_num⟩)).2

/-- C5 counterexample: on a provider whose `cost` block is present but
empty — so that every numeric sub-metric value vacuously lies in [1,10] —
the computed cost dimension score is 0, outside [1,10]; the claim as
stated is false. -/
theorem c5_score_bounds_counterexample :
    (∀ d b, emptyCostProvider.dims d = some b →
        ∀ x ∈ numericValues b, 1 ≤ x ∧ x ≤ 10) ∧
      (evaluateProvider emptyCostProvider defaultConstraints
        (calculateWeightings defaultConstraints)).dimensionScores .cost = some 0 ∧
      ¬ (1 : ℚ) ≤ 0 := by
  refine ⟨?_, ?_, by norm_num⟩
  · intro d b hb x hx
    cases d <;>
      simp only [emptyCostProvider] at hb <;>
      rw [Option.some.injEq] at hb <;>
      subst hb <;>
      simp [numericValues] at hx
    all_goals (subst hx; norm_num)
  · have hw : calculateWeightings defaultConstraints .cost = 34 / 125 := by
      rw [calculateWeightings_eq_pre]
      simp only [preWeightings, defaultConstraints, List.foldl_nil, mergeWeightings,
        budgetWeightings, experienceWeightings, workloadWeightings]
      norm_num
    simp only [evaluateProvider, dimScoreOpt, emptyCostProvider]
    rw [hw, if_pos (by norm_num : (34 : ℚ) / 125 > 0)]
    simp [calculateDimensionScore, numericValues]

/-! ## Stable sort: permutation facts -/

theorem stableInsert_perm (le : α → α → Bool) (x : α) (l : List α) :
    (stableInsert le x l).Perm (x :: l) := by
  induction l with
  | nil => exact List.Perm.refl _
  | cons y ys ih =>
    unfold stableInsert
    by_cases h : le x y
    · rw [if_pos h]
    · rw [if_neg h]
      exact (ih.cons y).trans (List.Perm.swap x y ys)

theorem stableSort_perm (le : α → α → Bool) (l : List α) :
    (stableSort le l).Perm l := by
  induction l with
  | nil => exact List.Perm.refl _
  | cons x xs ih =>
    exact (stableInsert_perm le x (stableSort le xs)).trans (ih.cons x)

theorem mem_stableSort (le : α → α → Bool) {x : α} {l : List α} (h : x ∈ l) :
    x ∈ stableSort le l :=
  (stableSort_perm le l).mem_iff.mpr h

/-! ## Filter/score independence (C8) -/

/-- C8: a provider whose hard-filter check fails still receives the
(filter-independent) computed total score and per-dimension scores, and
still appears as a full entry — with its rounded match score — in the
comparison output; `passesFilters` never removes a provider from scoring
or from the result. -/
theorem c8_filter_independence (providers : List (String × ProviderRecord))
    (nc : Constraints) (name : String) (p : ProviderRecord)
    (hmem : (name, p) ∈ providers)
    (hfail : checkConstraintFilters p nc = false) :
    (evaluateProvider p nc (calculateWeightings nc)).passesFilters = false ∧
      (evaluateProvider p nc (calculateWeightings nc)).totalScore =
        (Dimension.all.map (dimContribution p (calculateWeightings nc))).sum ∧
      (evaluateProvider p nc (calculateWeightings nc)).dimensionScores =
        dimScoreOpt p (calculateWeightings nc) ∧
      ∃ sec : ProviderSection,
        (name, sec) ∈ (generateComparisonOutput
          (providers.map (fun np => (np.1, evaluateProvider np.2 nc (calculateWeightings nc))))
          nc).providers ∧
        sec.matchScore =
          roundTo1 (evaluateProvider p nc (calculateWeightings nc)).totalScore := by
  refine ⟨by simp [evaluateProvider, hfail], rfl, rfl, ?_⟩
  have h1 : (name, evaluateProvider p nc (calculateWeightings nc)) ∈
      providers.map (fun np => (np.1, evaluateProvider np.2 nc (calculateWeightings nc))) :=
    List.mem_map_of_mem _ hmem
  have h2 : (name, evaluateProvider p nc (calculateWeightings nc)) ∈
      stableSort (fun a b => decide (b.2.totalScore ≤ a.2.totalScore))
        (providers.map (fun np => (np.1, evaluateProvider np.2 nc (calculateWeightings nc)))) :=
    mem_stableSort _ h1
  exact ⟨_, List.mem_map_of_mem _ h2, rfl⟩

/-- C8 witness: the concrete sample provider fails the default
constraint's hard filters (the active `cost.budgetFriendliness` filter
path resolves to nothing on the provider record), yet appears in the
output with its rounded score. -/
theorem c8_filter_independence_witness :
    checkConstraintFilters sampleProvider defaultConstraints = false ∧
      ∃ sec : ProviderSection,
        ("aws", sec) ∈ (generateComparisonOutput
          [("aws", evaluateProvider sampleProvider defaultConstraints
            (calculateWeightings defaultConstraints))]
          defaultConstraints).providers ∧
        sec.matchScore = roundTo1 (evaluateProvider sampleProvider defaultConstraints
          (calculateWeightings defaultConstraints)).totalScore := by
  have hfail : checkConstraintFilters sampleProvider defaultConstraints = false := by rfl
  refine ⟨hfail, ?_⟩
  have h := (c8_filter_independence [("aws", sampleProvider)] defaultConstraints
    "aws" sampleProvider (List.mem_singleton.mpr rfl) hfail).2.2.2
  simpa using h

/-! ## Rounding of scores embedded in generated text (C7) -/

theorem roundTo1_eq_specRoundTo1_of_nonneg (q : ℚ) (h : 0 ≤ q) :
    roundTo1 q = specRoundTo1 q := by
  unfold roundTo1 specRoundTo1 jsRound roundHalfAwayFromZero
  rw [if_pos (by positivity : (0 : ℚ) ≤ q * 10)]

/-- Any template sentence in a filter-sort-take-template narrative list
embeds one of the original entry scores, unchanged. -/
theorem templ_score_mem_aux (entries : List (Dimension × ℚ))
    (le : (Dimension × ℚ) → (Dimension × ℚ) → Bool)
    (pf : (Dimension × ℚ) → Bool) (tmpl : Dimension → ℚ → TemplText)
    (htmpl : ∀ d q, (tmpl d q).score = q)
    (plains : List String) (k1 k2 : Nat) (t : TemplText)
    (ht : NarrText.templ t ∈ (((stableSort le (entries.filter pf)).take k1).map
        (fun x => NarrText.templ (tmpl x.1 x.2)) ++ plains.map NarrText.plain).take k2) :
    t.score ∈ entries.map Prod.snd := by
  have ht1 := List.mem_of_mem_take ht
  rcases List.mem_append.mp ht1 with hL | hR
  · rcases List.mem_map.mp hL with ⟨x, hx, hxe⟩
    have hte : tmpl x.1 x.2 = t := by
      injection hxe
    have hx1 : x ∈ stableSort le (entries.filter pf) := List.mem_of_mem_take hx
    have hx2 : x ∈ entries.filter pf := (stableSort_perm le _).mem_iff.mp hx1
    have hx3 : x ∈ entries := List.mem_of_mem_filter hx2
    have hsc : t.score = x.2 := by rw [← hte, htmpl]
    rw [hsc]
    exact List.mem_map_of_mem Prod.snd hx3
  · rcases List.mem_map.mp hR with ⟨s, _, hse⟩
    exact absurd hse (by simp)

/-- C7 (amended): decision-guidance entries embed the score rounded to one
decimal by `Math.round(value*10)/10`, which on the non-negative scores at
hand equals round-half-away-from-zero on the value scaled by 10; the
strength/weakness template sentences embed the *raw* unrounded dimension
score (one of the evaluation's dimension-score values). -/
theorem c7_embedded_score_rounding (n : String) (q s : ℚ) (d : Dimension)
    (e : Evaluation) (t : TemplText) (hq : 0 ≤ q) :
    (guidanceEntry n q).score = roundTo1 q ∧
      roundTo1 q = specRoundTo1 q ∧
      (getDimensionStrengthText d s).score = s ∧
      (getDimensionWeaknessText d s).score = s ∧
      (NarrText.templ t ∈ getConstraintSpecificStrengths e →
        t.score ∈ (scoreEntries e).map Prod.snd) ∧
      (NarrText.templ t ∈ getConstraintSpecificWeaknesses e →
        t.score ∈ (scoreEntries e).map Prod.snd) := by
  refine ⟨rfl, roundTo1_eq_specRoundTo1_of_nonneg q hq, by cases d <;> rfl,
    by cases d <;> rfl, ?_, ?_⟩
  · intro ht
    exact templ_score_mem_aux (scoreEntries e) _ _ getDimensionStrengthText
      (fun d' q' => by cases d' <;> rfl) e.strengths 3 5 t
      (by simpa [getConstraintSpecificStrengths] using ht)
  · intro ht
    exact templ_score_mem_aux (scoreEntries e) _ _ getDimensionWeaknessText
      (fun d' q' => by cases d' <;> rfl) e.weaknesses 3 4 t
      (by simpa [getConstraintSpecificWeaknesses] using ht)

/-- C7 witness: the amended rounding facts at a concrete non-negative
score. -/
theorem c7_embedded_score_rounding_witness :
    (0 : ℚ) ≤ 25 / 3 ∧ (guidanceEntry "aws" (25 / 3)).score = roundTo1 (25 / 3) ∧
      roundTo1 (25 / 3) = specRoundTo1 (25 / 3) := by
  have h := c7_embedded_score_rounding "aws" (25 / 3) 5 .cost
    { providerName := "aws", totalScore := 5, dimensionScores := fun _ => none,
      passesFilters := false, strengths := [], weaknesses := [], idealUseCases := [],
      tradeOffs := none }
    ⟨"", 0, ""⟩ (by norm_num)
  exact ⟨by norm_num, h.1, h.2.1⟩

/-- C7 counterexample: a dimension block averaging to 25/3 — reachable
from sub-metric values 8, 8, 9 — is interpolated into the strength
template sentence as the raw value 25/3, which is not equal to its
one-decimal rounding 8.3; the claim that *every* embedded score is rounded
is false. -/
theorem c7_embedded_score_rounding_counterexample :
    calculateDimensionScore
        [("a", SubMetric.num 8), ("b", SubMetric.num 8), ("c", SubMetric.num 9)] = 25 / 3 ∧
      (getDimensionStrengthText .cost (25 / 3)).score = 25 / 3 ∧
      (25 : ℚ) / 3 ≠ specRoundTo1 (25 / 3) := by
  refine ⟨?_, rfl, ?_⟩
  · simp only [calculateDimensionScore, numericValues, List.filterMap]
    norm_num
  · unfold specRoundTo1 roundHalfAwayFromZero
    rw [if_pos (by norm_num : (0 : ℚ) ≤ 25 / 3 * 10)]
    have hf : ⌊(25 : ℚ) / 3 * 10 + 1 / 2⌋ = 83 := by
      rw [Int.floor_eq_iff]
      norm_num
    rw [hf]
    norm_num

/-! ## The formatter gate: failure on any structural or bias issue (C1) -/

/-- C1: `formatComparisonResults` succeeds exactly when the structural
check and the neutrality scan both accumulate zero issues, and a success
always carries the assembled formatted output unchanged; any accumulated
issue yields a failure (code `OUTPUT_FORMATTING_ERROR`), never a
corrected success. -/
theorem c1_formatter_rejects_on_issues (raw : ComparisonOutput) (c : Constraints)
    (now : String) :
    (formatComparisonResults raw c now =
        .success
          { timestamp := now, constraints := c, providers := formatProviders raw.providers,
            crossProviderAnalysis := raw.crossProviderAnalysis,
            decisionGuidance := formatDecisionGuidance raw.decisionGuidance } ↔
      validateOutputStructure
          { timestamp := now, constraints := c, providers := formatProviders raw.providers,
            crossProviderAnalysis := raw.crossProviderAnalysis,
            decisionGuidance := formatDecisionGuidance raw.decisionGuidance } = [] ∧
        detectBias
          { timestamp := now, constraints := c, providers := formatProviders raw.providers,
            crossProviderAnalysis := raw.crossProviderAnalysis,
            decisionGuidance := formatDecisionGuidance raw.decisionGuidance } = []) ∧
      (formatComparisonResults raw c now =
          .success
            { timestamp := now, constraints := c, providers := formatProviders raw.providers,
              crossProviderAnalysis := raw.crossProviderAnalysis,
              decisionGuidance := formatDecisionGuidance raw.decisionGuidance } ∨
        ∃ msg, formatComparisonResults raw c now = .failure "OUTPUT_FORMATTING_ERROR" msg) := by
  unfold formatComparisonResults
  set f : FormattedOutput :=
    { timestamp := now, constraints := c, providers := formatProviders raw.providers,
      crossProviderAnalysis := raw.crossProviderAnalysis,
      decisionGuidance := formatDecisionGuidance raw.decisionGuidance } with hf
  by_cases h1 : validateOutputStructure f = []
  · by_cases h2 : detectBias f = []
    · simp [h1, h2]
    · simp [h1, h2]
  · simp [h1]

/-! ## Constraint normalization and rejection (C6) -/

theorem scalarBlock_eq (o : Option String) (valid : List String) (dflt reqMsg : String)
    (msgOf : String → String) (hd : dflt ∈ valid) (h0 : dflt ≠ "") :
    (if lowerOrDefault o dflt = "" then [reqMsg]
      else if !valid.contains (lowerOrDefault o dflt) then [msgOf (lowerOrDefault o dflt)]
      else []) =
    (if scalarFieldInvalid o valid then [msgOf (lowerOrDefault o dflt)] else []) := by
  cases o with
  | none =>
    simp [lowerOrDefault, scalarFieldInvalid, h0, hd]
  | some s =>
    by_cases h : strLower s = ""
    · simp [lowerOrDefault, scalarFieldInvalid, h, h0, hd]
    · by_cases hc : valid.contains (strLower s)
      · simp [lowerOrDefault, scalarFieldInvalid, h, hc]
      · simp [lowerOrDefault, scalarFieldInvalid, h, hc]

theorem budgetBlock_eq (o : Option String) :
    (if lowerOrDefault o "medium" = "" then ["Budget level is required"]
      else if !validBudgetStrings.contains (lowerOrDefault o "medium") then
        ["Invalid budget level: " ++ lowerOrDefault o "medium" ++ ". Must be one of: " ++
          joinSep ", " validBudgetStrings]
      else []) =
    (if scalarFieldInvalid o validBudgetStrings then
      ["Invalid budget level: " ++ lowerOrDefault o "medium" ++ ". Must be one of: " ++
        joinSep ", " validBudgetStrings]
    else []) :=
  scalarBlock_eq o validBudgetStrings "medium" "Budget level is required"
    (fun x => "Invalid budget level: " ++ x ++ ". Must be one of: " ++
      joinSep ", " validBudgetStrings) (by decide) (by decide)

theorem experienceBlock_eq (o : Option String) :
    (if lowerOrDefault o "intermediate" = "" then ["Experience level is required"]
      else if !validExperienceStrings.contains (lowerOrDefault o "intermediate") then
        ["Invalid experience level: " ++ lowerOrDefault o "intermediate" ++ ". Must be one of: " ++
          joinSep ", " validExperienceStrings]
      else []) =
    (if scalarFieldInvalid o validExperienceStrings then
      ["Invalid experience level: " ++ lowerOrDefault o "intermediate" ++ ". Must be one of: " ++
        joinSep ", " validExperienceStrings]
    else []) :=
  scalarBlock_eq o validExperienceStrings "intermediate" "Experience level is required"
    (fun x => "Invalid experience level: " ++ x ++ ". Must be one of: " ++
      joinSep ", " validExperienceStrings) (by decide) (by decide)

theorem workloadBlock_eq (o : Option String) :
    (if lowerOrDefault o "startup" = "" then ["Workload type is required"]
      else if !validWorkloadStrings.contains (lowerOrDefault o "startup") then
        ["Invalid workload type: " ++ lowerOrDefault o "startup" ++ ". Must be one of: " ++
          joinSep ", " validWorkloadStrings]
      else []) =
    (if scalarFieldInvalid o validWorkloadStrings then
      ["Invalid workload type: " ++ lowerOrDefault o "startup" ++ ". Must be one of: " ++
        joinSep ", " validWorkloadStrings]
    else []) :=
  scalarBlock_eq o validWorkloadStrings "startup" "Workload type is required"
    (fun x => "Invalid workload type: " ++ x ++ ". Must be one of: " ++
      joinSep ", " validWorkloadStrings) (by decide) (by decide)

theorem validate_normalized (r : RawConstraintInput) :
    validateConstraints (normalizeConstraints r) =
      (fieldErrorMessages r, noPriorityWarning (normalizeConstraints r)) := by
  have hinv : ((normalizeConstraints r).priorities.filter
      (fun p => !(processorValidPriorities.contains p))) = [] := by
    apply List.filter_eq_nil_iff.mpr
    intro a ha
    cases hps : r.priorities with
    | none => simp [normalizeConstraints, hps] at ha
    | some l =>
      simp only [normalizeConstraints, hps] at ha
      have hc := List.of_mem_filter ha
      simp at hc ⊢
      exact hc
  unfold validateConstraints
  rw [hinv]
  simp only [ne_eq, not_true_eq_false, if_false, List.nil_append]
  rw [show (normalizeConstraints r).budget = lowerOrDefault r.budget "medium" from rfl,
    show (normalizeConstraints r).experience = lowerOrDefault r.experience "intermediate" from rfl,
    show (normalizeConstraints r).workload = lowerOrDefault r.workload "startup" from rfl,
    budgetBlock_eq, experienceBlock_eq, workloadBlock_eq]
  rfl

/-- C6 (amended): the processor hard-rejects — with an error message per
field — exactly the inputs in which some scalar field among
budget/experience/workload is supplied but, after lower-casing, is not in
its enumeration; a wholly absent (or lower-cased-empty) field is defaulted
to `medium`/`intermediate`/`startup` (priorities to the empty list);
unknown priority values are silently dropped with *no* warning naming
them — the only warning through this path is the generic
no-valid-priorities warning, emitted exactly when no valid priority
remains. -/
theorem c6_normalization_and_rejection (r : RawConstraintInput)
    (b e w : Option String) (ps : Option (List String)) :
    (processConstraintsPC r =
      if fieldErrorMessages r = [] then
        .success (normalizeConstraints r) (noPriorityWarning (normalizeConstraints r))
      else .failure (fieldErrorMessages r) (noPriorityWarning (normalizeConstraints r))) ∧
      (normalizeConstraints ⟨none, e, w, ps⟩).budget = "medium" ∧
      (normalizeConstraints ⟨b, none, w, ps⟩).experience = "intermediate" ∧
      (normalizeConstraints ⟨b, e, none, ps⟩).workload = "startup" ∧
      (normalizeConstraints ⟨b, e, w, none⟩).priorities = [] ∧
      (normalizeConstraints r).priorities =
        ((r.priorities.getD []).map strLower).filter
          (fun p => processorValidPriorities.contains p) := by
  refine ⟨?_, rfl, rfl, rfl, rfl, ?_⟩
  · simp only [processConstraintsPC]
    rw [validate_normalized r]
    by_cases he : fieldErrorMessages r = []
    · simp [he]
    · simp [he]
  · cases hps : r.priorities <;> simp [normalizeConstraints, hps]

/-- C6 counterexample: an input with the unknown priority `bogus` among a
valid one is accepted with the unknown value silently dropped and an
*empty* warning list — there is no warning accompanying the drop, contrary
to the claim as stated. -/
theorem c6_counterexample :
    processConstraintsPC ⟨some "low", some "beginner", some "startup",
        some ["cost", "bogus"]⟩ =
      .success ⟨"low", "beginner", "startup", ["cost"]⟩ [] := by
  decide

/-! ## Cache-key field-order invariance (C9) -/

theorem charsLe_total (a : List Char) : ∀ b, charsLe a b = true ∨ charsLe b a = true := by
  induction a with
  | nil => intro b; left; rfl
  | cons x xs ih =>
    intro b
    cases b with
    | nil => right; rfl
    | cons y ys =>
      by_cases hxy : x = y
      · subst hxy
        unfold charsLe
        simp only [if_pos rfl]
        exact ih ys
      · have hyx : ¬ y = x := fun h => hxy h.symm
        unfold charsLe
        simp only [if_neg hxy, if_neg hyx]
        rcases lt_or_gt_of_ne hxy with h | h
        · left; exact decide_eq_true h
        · right; exact decide_eq_true h

theorem charsLe_antisymm (a : List Char) :
    ∀ b, charsLe a b = true → charsLe b a = true → a = b := by
  induction a with
  | nil =>
    intro b _ h2
    cases b with
    | nil => rfl
    | cons y ys => exact absurd h2 (by simp [charsLe])
  | cons x xs ih =>
    intro b h1 h2
    cases b with
    | nil => exact absurd h1 (by simp [charsLe])
    | cons y ys =>
      by_cases hxy : x = y
      · subst hxy
        unfold charsLe at h1 h2
        simp only [if_pos rfl] at h1 h2
        rw [ih ys h1 h2]
      · have hyx : ¬ y = x := fun h => hxy h.symm
        unfold charsLe at h1 h2
        rw [if_neg hxy] at h1
        rw [if_neg hyx] at h2
        exact absurd (lt_trans (of_decide_eq_true h1) (of_decide_eq_true h2)) (lt_irrefl x)

theorem charsLe_trans (a : List Char) :
    ∀ b c, charsLe a b = true → charsLe b c = true → charsLe a c = true := by
  induction a with
  | nil => intro b c _ _; rfl
  | cons x xs ih =>
    intro b c h1 h2
    cases b with
    | nil => exact absurd h1 (by simp [charsLe])
    | cons y ys =>
      cases c with
      | nil => exact absurd h2 (by simp [charsLe])
      | cons z zs =>
        unfold charsLe at h1 h2 ⊢
        by_cases hxy : x = y
        · subst hxy
          simp only [if_pos rfl] at h1
          by_cases hxz : x = z
          · subst hxz
            simp only [if_pos rfl] at h2 ⊢
            exact ih ys zs h1 h2
          · simp only [if_neg hxz] at h2 ⊢
            exact h2
        · rw [if_neg hxy] at h1
          have hlt1 : x < y := of_decide_eq_true h1
          by_cases hyz : y = z
          · have hltz : x < z := hyz ▸ hlt1
            have hxz : ¬ x = z := fun h => absurd (h ▸ hltz) (lt_irrefl z)
            rw [if_neg hxz]
            exact decide_eq_true hltz
          · rw [if_neg hyz] at h2
            have hlt2 : y < z := of_decide_eq_true h2
            have hltz : x < z := lt_trans hlt1 hlt2
            have hxz : ¬ x = z := fun h => absurd (h ▸ hltz) (lt_irrefl z)
            rw [if_neg hxz]
            exact decide_eq_true hltz

theorem strLe_total (a b : String) : strLe a b = true ∨ strLe b a = true :=
  charsLe_total a.data b.data

theorem strLe_antisymm (a b : String) (h1 : strLe a b = true) (h2 : strLe b a = true) :
    a = b := by
  cases a with
  | mk da =>
    cases b with
    | mk db => exact congrArg String.mk (charsLe_antisymm da db h1 h2)

theorem strLe_trans (a b c : String) (h1 : strLe a b = true) (h2 : strLe b c = true) :
    strLe a c = true :=
  charsLe_trans a.data b.data c.data h1 h2

theorem pairwise_stableInsert (le : α → α → Bool)
    (htrans : ∀ a b c, le a b = true → le b c = true → le a c = true)
    (htot : ∀ a b, le a b = true ∨ le b a = true) (x : α) :
    ∀ l : List α, l.Pairwise (fun a b => le a b = true) →
      (stableInsert le x l).Pairwise (fun a b => le a b = true) := by
  intro l
  induction l with
  | nil => intro _; exact List.pairwise_singleton _ x
  | cons y ys ih =>
    intro hp
    rcases List.pairwise_cons.mp hp with ⟨hy, hys⟩
    unfold stableInsert
    by_cases h : le x y
    · rw [if_pos h]
      refine List.pairwise_cons.mpr ⟨?_, hp⟩
      intro b hb
      rcases List.mem_cons.mp hb with rfl | hb'
      · exact h
      · exact htrans x y b h (hy b hb')
    · rw [if_neg h]
      have hyx : le y x = true := (htot x y).resolve_left h
      refine List.pairwise_cons.mpr ⟨?_, ih hys⟩
      intro b hb
      have hb' : b ∈ x :: ys := (stableInsert_perm le x ys).mem_iff.mp hb
      rcases List.mem_cons.mp hb' with rfl | hb''
      · exact hyx
      · exact hy b hb''

theorem pairwise_stableSort (le : α → α → Bool)
    (htrans : ∀ a b c, le a b = true → le b c = true → le a c = true)
    (htot : ∀ a b, le a b = true ∨ le b a = true) (l : List α) :
    (stableSort le l).Pairwise (fun a b => le a b = true) := by
  induction l with
  | nil => exact List.Pairwise.nil
  | cons x xs ih => exact pairwise_stableInsert le htrans htot x _ ih

theorem stableSort_strLe_eq_of_perm (l1 l2 : List String) (h : l1.Perm l2) :
    stableSort strLe l1 = stableSort strLe l2 := by
  haveI : IsAntisymm String (fun a b => strLe a b = true) := ⟨strLe_antisymm⟩
  exact List.eq_of_perm_of_sorted
    ((stableSort_perm strLe l1).trans (h.trans (stableSort_perm strLe l2).symm))
    (pairwise_stableSort strLe strLe_trans strLe_total l1)
    (pairwise_stableSort strLe strLe_trans strLe_total l2)

theorem lookup_eq_of_perm :
    ∀ {l1 l2 : List (String × CVal)}, l1.Perm l2 →
      (l1.map Prod.fst).Nodup → ∀ k, List.lookup k l1 = List.lookup k l2 := by
  intro l1 l2 h
  induction h with
  | nil => intro _ _; rfl
  | cons a h ih =>
    intro hnd k
    obtain ⟨ka, va⟩ := a
    have hnd' := hnd
    simp only [List.map_cons, List.nodup_cons] at hnd'
    simp only [List.lookup]
    cases hk : k == ka
    · exact ih hnd'.2 k
    · rfl
  | swap x y t =>
    intro hnd k
    obtain ⟨kx, vx⟩ := x
    obtain ⟨ky, vy⟩ := y
    have hnd' := hnd
    simp only [List.map_cons, List.nodup_cons, List.mem_cons, not_or] at hnd'
    have hxy : ¬ ky = kx := hnd'.1.1
    simp only [List.lookup]
    cases hky : k == ky <;> cases hkx : k == kx <;> simp only [List.lookup, hky, hkx]
    exact absurd ((eq_of_beq hky).symm.trans (eq_of_beq hkx)) hxy
  | trans h1 h2 ih1 ih2 =>
    intro hnd k
    have hnd2 := ((h1.map Prod.fst).nodup_iff).mp hnd
    exact (ih1 hnd k).trans (ih2 hnd2 k)

/-- C9: the cache fingerprint is insensitive to the field order of the
constraints object — the serialization sorts the field names before
hashing, so any two field-permutations of the same constraint record (with
distinct field names) produce the same cache key. -/
theorem c9_cache_key_order_invariance (f1 f2 : List (String × CVal))
    (hperm : f1.Perm f2) (hnd : (f1.map Prod.fst).Nodup) :
    generateCacheKey f1 = generateCacheKey f2 := by
  unfold generateCacheKey jsonStringifySortedKeys
  rw [stableSort_strLe_eq_of_perm _ _ (hperm.map Prod.fst)]
  have hfun : (fun k => (List.lookup k f1).map
        (fun v => jsonQuote k ++ ":" ++ serializeCVal v)) =
      (fun k => (List.lookup k f2).map
        (fun v => jsonQuote k ++ ":" ++ serializeCVal v)) :=
    funext fun k => by rw [lookup_eq_of_perm hperm hnd k]
  rw [hfun]

/-- C9 witness: two concrete field orders of the same constraint record
hash to equal cache keys. -/
theorem c9_cache_key_order_invariance_witness :
    ([("workload", CVal.cstr "startup"), ("budget", CVal.cstr "low"),
        ("priorities", CVal.carr ["cost"]), ("experience", CVal.cstr "beginner")] :
      List (String × CVal)).Perm
        [("budget", CVal.cstr "low"), ("experience", CVal.cstr "beginner"),
          ("workload", CVal.cstr "startup"), ("priorities", CVal.carr ["cost"])] ∧
      generateCacheKey
          [("workload", CVal.cstr "startup"), ("budget", CVal.cstr "low"),
            ("priorities", CVal.carr ["cost"]), ("experience", CVal.cstr "beginner")] =
        generateCacheKey
          [("budget", CVal.cstr "low"), ("experience", CVal.cstr "beginner"),
            ("workload", CVal.cstr "startup"), ("priorities", CVal.carr ["cost"])] :=
  ⟨by decide, c9_cache_key_order_invariance _ _ (by decide) (by decide)⟩

/-! ## Determinism of the engine up to the wall clock (C2) -/

/-- C2 (amended): with the cache cleared before each call, two evaluations
of the same constraints over the same dataset return identical results
except for the wall-clock metadata timestamp (the cache-bookkeeping
metadata is equal outright, since `clearCache` also resets the counters).
The comparison content itself is a pure function of the dataset and the
constraints. -/
theorem c2_determinism_up_to_timestamp (ds : List (String × ProviderRecord))
    (st : EngineState) (i : EngineInput) (now1 now2 : String) :
    eraseTimestamps ((processConstraints ds (clearCache st) i now1).1) =
      eraseTimestamps ((processConstraints ds (clearCache st) i now2).1) ∧
      (processConstraints ds (clearCache st) i now1).2 =
        (processConstraints ds (clearCache st) i now2).2 := by
  unfold processConstraints clearCache
  cases hv : validateAndNormalizeConstraints i with
  | error msg => simp [List.lookup, hv, eraseTimestamps]
  | ok nc =>
    by_cases hd : ds.length = 0 <;>
      simp [List.lookup, hv, hd, eraseTimestamps, cacheResult]

/-- C2 counterexample: the claim as stated allows the two results to
differ only in cache-bookkeeping metadata; but with the bookkeeping
metadata erased the two results still differ, in the wall-clock
`metadata.timestamp`. -/
theorem c2_determinism_counterexample :
    stripCacheBookkeeping ((processConstraints [("aws", sampleProvider)]
        (clearCache emptyEngineState)
        ⟨some "low", some "beginner", some "startup", some ["cost"]⟩
        "2026-01-01T00:00:00.000Z").1) ≠
      stripCacheBookkeeping ((processConstraints [("aws", sampleProvider)]
        (clearCache emptyEngineState)
        ⟨some "low", some "beginner", some "startup", some ["cost"]⟩
        "2026-01-01T00:00:00.001Z").1) := by
  intro h
  have h1 : resultTimestamp (stripCacheBookkeeping ((processConstraints
      [("aws", sampleProvider)] (clearCache emptyEngineState)
      ⟨some "low", some "beginner", some "startup", some ["cost"]⟩
      "2026-01-01T00:00:00.000Z").1)) = some "2026-01-01T00:00:00.000Z" := rfl
  have h2 : resultTimestamp (stripCacheBookkeeping ((processConstraints
      [("aws", sampleProvider)] (clearCache emptyEngineState)
      ⟨some "low", some "beginner", some "startup", some ["cost"]⟩
      "2026-01-01T00:00:00.001Z").1)) = some "2026-01-01T00:00:00.001Z" := rfl
  have h3 := congrArg resultTimestamp h
  rw [h1, h2] at h3
  have h4 : ("2026-01-01T00:00:00.000Z" : String) = "2026-01-01T00:00:00.001Z" :=
    Option.some.inj h3
  exact absurd h4 (by decide)

/-! ## Error paths and the cache (C10) -/

/-- C10: `processConstraints` either succeeds, or fails with error code
`COMPARISON_ERROR` leaving the cache's stored-entry map unchanged; and the
cache map changes only on a fresh (non-cache-hit) success, so no failed
evaluation is ever stored. -/
theorem c10_error_paths_leave_cache_unchanged (ds : List (String × ProviderRecord))
    (st : EngineState) (i : EngineInput) (now : String) :
    ((∃ r, (processConstraints ds st i now).1 = .ok r) ∨
      (∃ msg t, (processConstraints ds st i now).1 = .err "COMPARISON_ERROR" msg t ∧
        (processConstraints ds st i now).2.cache = st.cache)) ∧
      ((processConstraints ds st i now).2.cache = st.cache ∨
        ∃ r, (processConstraints ds st i now).1 = .ok r ∧ r.fromCache = false) := by
  simp only [processConstraints]
  cases hl : List.lookup (generateCacheKey i.fields) st.cache with
  | some cached => simp [hl]
  | none =>
    cases hv : validateAndNormalizeConstraints i with
    | error msg => simp [hl, hv]
    | ok nc =>
      by_cases hd : ds.length = 0 <;> simp [hl, hv, hd]

end CloudReferee
